import Mathlib

/-!
Verification of an MC68000 emulator core (memory, CPU, two-pass assembler).
The Lean definitions below are a shallow embedding of the Rust sources
`memory.rs`, `cpu.rs` and `assembler.rs`: machine integers are modelled as
`Nat` (unsigned) and `Int` (signed) with explicit reductions modulo `2^w`
where the Rust code truncates or wraps.
-/

namespace M68k

/-- Truncating cast to `u8` (Rust `as u8`). -/
def asU8 (n : Nat) : Nat := n % 256

/-- Truncating cast to `u16` (Rust `as u16`). -/
def asU16 (n : Nat) : Nat := n % 65536

/-- Truncating cast to `u32` (Rust `as u32`). -/
def asU32 (n : Nat) : Nat := n % 4294967296

/-- Reinterpret the low 8 bits of a `Nat` as a signed `i8` (Rust `as i8`). -/
def toI8 (n : Nat) : Int :=
  if n % 256 < 128 then ((n % 256 : Nat) : Int) else ((n % 256 : Nat) : Int) - 256

/-- Reinterpret the low 16 bits of a `Nat` as a signed `i16` (Rust `as i16`). -/
def toI16 (n : Nat) : Int :=
  if n % 65536 < 32768 then ((n % 65536 : Nat) : Int)
  else ((n % 65536 : Nat) : Int) - 65536

/-- Reinterpret the low 32 bits of a `Nat` as a signed `i32` (Rust `as i32`). -/
def toI32 (n : Nat) : Int :=
  if n % 4294967296 < 2147483648 then ((n % 4294967296 : Nat) : Int)
  else ((n % 4294967296 : Nat) : Int) - 4294967296

/-- Wrap an integer into the `i32` range (Rust release-mode wrapping
arithmetic on `i32`). -/
def wrapI32 (z : Int) : Int := ((z + 2147483648) % 4294967296) - 2147483648

/-- Cast a signed integer to `u32` (Rust `as u32` on an `i32`). -/
def intAsU32 (z : Int) : Nat := (z % 4294967296).toNat

/-- Cast a signed integer to its low byte (Rust `as u16 & 0xFF` on an `i8`). -/
def intAsU8 (z : Int) : Nat := (z % 256).toNat

/-- Cast a signed integer to `u16` (Rust `as u16` on an `i8`). -/
def intAsU16 (z : Int) : Nat := (z % 65536).toNat

/-! ## Memory (`memory.rs`)

`Memory` is a flat 16 MiB byte store (`Vec<u8>`), modelled as a function from
addresses to byte values; reads reduce modulo 256, mirroring the `u8` cell
type, and a fresh memory is all zeroes. -/

/-- The memory store: one byte per address. -/
def Mem : Type := Nat → Nat

/-- `Memory::new`: 16 MiB of zeroed bytes. -/
def mem_new : Mem := fun _ => 0

/-- `Memory::read_byte`. -/
def read_byte (m : Mem) (address : Nat) : Nat := m address % 256

/-- `Memory::write_byte`. -/
def write_byte (m : Mem) (address value : Nat) : Mem :=
  fun a => if a = address then value % 256 else m a

/-- `Memory::read_word` (big-endian: byte at `address` is the high byte). -/
def read_word (m : Mem) (address : Nat) : Nat :=
  (read_byte m address <<< 8) ||| read_byte m (address + 1)

/-- `Memory::write_word`. -/
def write_word (m : Mem) (address value : Nat) : Mem :=
  write_byte (write_byte m address (asU8 (value >>> 8))) (address + 1) (asU8 (value &&& 0xFF))

/-- `Memory::read_long` (two big-endian words, high word first). -/
def read_long (m : Mem) (address : Nat) : Nat :=
  (read_word m address <<< 16) ||| read_word m (address + 2)

/-- `Memory::write_long`. -/
def write_long (m : Mem) (address value : Nat) : Mem :=
  write_word (write_word m address (asU16 (value >>> 16))) (address + 2) (asU16 (value &&& 0xFFFF))

/-- Load an assembler output stream into memory, one `(address, word)` pair
at a time. -/
def loadWords (m : Mem) (ws : List (Nat × Nat)) : Mem :=
  ws.foldl (fun acc p => write_word acc p.1 p.2) m

/-! ## CPU (`cpu.rs`) -/

/-- The CPU register file (`struct CPU`). -/
structure CPU where
  data_registers : Nat → Nat
  address_registers : Nat → Nat
  program_counter : Nat
  condition_code_register : Nat
  supervisor_stack_pointer : Nat
  vector_base_register : Nat
  status_register : Nat

/-- `CPU::new`: everything zeroed. -/
def cpu_new : CPU :=
  { data_registers := fun _ => 0
    address_registers := fun _ => 0
    program_counter := 0
    condition_code_register := 0
    supervisor_stack_pointer := 0
    vector_base_register := 0
    status_register := 0 }

/-- `CPU::reset`: zero the program counter and flags, set the status register
to the supervisor/interrupts value `0x2700`. -/
def reset (c : CPU) : CPU :=
  { c with
    program_counter := 0
    condition_code_register := 0
    status_register := 0x2700 }

/-- Store into a data register. -/
def setD (c : CPU) (i v : Nat) : CPU :=
  { c with data_registers := fun j => if j = i then v else c.data_registers j }

/-- Store into an address register. -/
def setA (c : CPU) (i v : Nat) : CPU :=
  { c with address_registers := fun j => if j = i then v else c.address_registers j }

/-- `CPU::update_flags_for_result`: set/clear the Zero flag (bit 2) and the
Negative flag (bit 3) from a signed 32-bit result. -/
def update_flags_for_result (ccr : Nat) (result : Int) : Nat :=
  let c1 := if result = 0 then ccr ||| 0x04 else ccr &&& 0xFB
  if result < 0 then c1 ||| 0x08 else c1 &&& 0xF7

/-- `CPU::check_condition`: branch-condition predicate over the CCR. -/
def check_condition (ccr : Nat) (condition : Nat) : Bool :=
  match condition with
  | 0x0 => true
  | 0x1 => false
  | 0x2 => (ccr &&& 0x01) != 0
  | 0x3 => (ccr &&& 0x01) == 0
  | 0x4 => (ccr &&& 0x01) == 0
  | 0x5 => (ccr &&& 0x01) != 0
  | 0x6 => (ccr &&& 0x04) == 0
  | 0x7 => (ccr &&& 0x04) != 0
  | _ => false

/-- `CPU::move_instruction` (opcode groups `0x1..0x3`). -/
def move_instruction (c : CPU) (m : Mem) (instruction : Nat) : CPU × Mem :=
  let size := (instruction >>> 12) &&& 0x3
  let dest_reg := (instruction >>> 9) &&& 0x7
  let dest_mode := (instruction >>> 6) &&& 0x7
  let src_mode := (instruction >>> 3) &&& 0x7
  let src_reg := instruction &&& 0x7
  if size = 2 ∧ dest_mode = 7 ∧ src_mode = 7 ∧ src_reg = 4 then
    let pc1 := asU32 (c.program_counter + 2)
    let immediate := read_word m pc1
    let pc2 := asU32 (pc1 + 2)
    ({ setD c dest_reg immediate with program_counter := pc2 }, m)
  else if size = 2 ∧ dest_mode = 1 ∧ src_mode = 7 ∧ src_reg = 4 then
    let pc1 := asU32 (c.program_counter + 2)
    let immediate := read_word m pc1
    let pc2 := asU32 (pc1 + 2)
    ({ setA c dest_reg immediate with program_counter := pc2 }, m)
  else if size = 2 ∧ dest_mode = 0 ∧ src_mode = 2 then
    let address := c.address_registers src_reg
    let value := read_long m address
    ({ setD c dest_reg value with program_counter := asU32 (c.program_counter + 2) }, m)
  else if size = 2 ∧ dest_mode = 2 ∧ src_mode = 0 then
    let address := c.address_registers dest_reg
    let value := c.data_registers src_reg
    ({ c with program_counter := asU32 (c.program_counter + 2) }, write_long m address value)
  else if instruction = 0x3200 then
    let c1 := setD c 1 (c.data_registers 0)
    let c2 := { c1 with
      condition_code_register :=
        update_flags_for_result c1.condition_code_register (toI32 (c1.data_registers 1)) }
    ({ c2 with program_counter := asU32 (c2.program_counter + 2) }, m)
  else
    ({ c with program_counter := asU32 (c.program_counter + 2) }, m)

/-- `CPU::addq_subq_instruction` (opcode group `0x5`). -/
def addq_subq_instruction (c : CPU) (m : Mem) (instruction : Nat) : CPU × Mem :=
  let data := (instruction >>> 9) &&& 0x7
  let is_subq := (instruction &&& 0x0100) ≠ 0
  let reg := instruction &&& 0x7
  let immediate : Int := if data = 0 then 8 else (data : Int)
  let old_value := toI32 (c.data_registers reg)
  let new_value := if is_subq then wrapI32 (old_value - immediate) else wrapI32 (old_value + immediate)
  let c1 := setD c reg (intAsU32 new_value)
  let c2 := { c1 with
    condition_code_register := update_flags_for_result c1.condition_code_register new_value }
  ({ c2 with program_counter := asU32 (c2.program_counter + 2) }, m)

/-- `CPU::moveq_instruction` (opcode group `0x7`). -/
def moveq_instruction (c : CPU) (m : Mem) (instruction : Nat) : CPU × Mem :=
  let register := (instruction >>> 9) &&& 0x7
  let immediate := toI8 (instruction &&& 0xFF)
  let c1 := setD c register (intAsU32 immediate)
  let c2 := { c1 with
    condition_code_register := update_flags_for_result c1.condition_code_register immediate }
  ({ c2 with program_counter := asU32 (c2.program_counter + 2) }, m)

/-- `CPU::branch_instruction` (opcode group `0x6`). -/
def branch_instruction (c : CPU) (m : Mem) (instruction : Nat) : CPU × Mem :=
  let condition := (instruction >>> 8) &&& 0xF
  let displacement := toI8 (instruction &&& 0xFF)
  if check_condition c.condition_code_register condition then
    ({ c with program_counter := intAsU32 (toI32 c.program_counter + displacement + 2) }, m)
  else
    ({ c with program_counter := asU32 (c.program_counter + 2) }, m)

/-- `CPU::unimplemented_instruction`: advance past the word. -/
def unimplemented_instruction (c : CPU) (m : Mem) : CPU × Mem :=
  ({ c with program_counter := asU32 (c.program_counter + 2) }, m)

/-- `CPU::miscellaneous_instruction` (opcode groups `0x0` and `0x4`):
CMPI.L, JMP, NOP and the SIMHALT sentinel. -/
def miscellaneous_instruction (c : CPU) (m : Mem) (instruction : Nat) : CPU × Mem :=
  if instruction &&& 0xFFF8 = 0x0C80 then
    let dest_reg := instruction &&& 0x7
    let pc1 := asU32 (c.program_counter + 2)
    let immediate : Int := (read_word m pc1 : Int)
    let pc2 := asU32 (pc1 + 2)
    let dest_value := toI32 (c.data_registers dest_reg)
    let result := wrapI32 (dest_value - immediate)
    ({ c with
        program_counter := pc2
        condition_code_register := update_flags_for_result c.condition_code_register result }, m)
  else if instruction = 0x4EF8 then
    let target_address := read_word m (asU32 (c.program_counter + 2))
    ({ c with program_counter := target_address }, m)
  else if instruction = 0x4E71 then
    ({ c with program_counter := asU32 (c.program_counter + 2) }, m)
  else if instruction = 0x4E72 then
    (c, m)
  else
    ({ c with program_counter := asU32 (c.program_counter + 2) }, m)

/-- `CPU::sub_cmp_instruction` (opcode groups `0x9` and `0xB`). -/
def sub_cmp_instruction (c : CPU) (m : Mem) (instruction : Nat) : CPU × Mem :=
  let opcode_high := (instruction >>> 12) &&& 0xF
  let dest_reg := (instruction >>> 9) &&& 0x7
  let source_reg := instruction &&& 0x7
  let source_value := toI32 (c.data_registers source_reg)
  let dest_value := toI32 (c.data_registers dest_reg)
  let result := wrapI32 (dest_value - source_value)
  if opcode_high = 0xB then
    let c1 := { c with
      condition_code_register := update_flags_for_result c.condition_code_register result }
    ({ c1 with program_counter := asU32 (c1.program_counter + 2) }, m)
  else
    let c1 := setD c dest_reg (intAsU32 result)
    let c2 := { c1 with
      condition_code_register := update_flags_for_result c1.condition_code_register result }
    ({ c2 with program_counter := asU32 (c2.program_counter + 2) }, m)

/-- `CPU::and_instruction` (opcode group `0xC`): MULS forms and the AND
placeholder. -/
def and_instruction (c : CPU) (m : Mem) (instruction : Nat) : CPU × Mem :=
  let dest_mode := (instruction >>> 6) &&& 0x7
  let src_mode := (instruction >>> 3) &&& 0x7
  let src_reg := instruction &&& 0x7
  if dest_mode = 7 ∧ src_mode = 7 ∧ src_reg = 4 then
    let dest_reg := (instruction >>> 9) &&& 0x7
    let pc1 := asU32 (c.program_counter + 2)
    let immediate := toI16 (read_word m pc1)
    let pc2 := asU32 (pc1 + 2)
    let dest_value := toI16 (c.data_registers dest_reg)
    let result := dest_value * immediate
    let c1 := setD c dest_reg (intAsU32 result)
    let c2 := { c1 with
      condition_code_register := update_flags_for_result c1.condition_code_register result }
    ({ c2 with program_counter := pc2 }, m)
  else if dest_mode = 7 ∧ src_mode = 0 then
    let dest_reg := (instruction >>> 9) &&& 0x7
    let source_value := toI16 (c.data_registers src_reg)
    let dest_value := toI16 (c.data_registers dest_reg)
    let result := source_value * dest_value
    let c1 := setD c dest_reg (intAsU32 result)
    let c2 := { c1 with
      condition_code_register := update_flags_for_result c1.condition_code_register result }
    ({ c2 with program_counter := asU32 (c2.program_counter + 2) }, m)
  else
    ({ c with program_counter := asU32 (c.program_counter + 2) }, m)

/-- `CPU::add_instruction` (opcode group `0xD`). -/
def add_instruction (c : CPU) (m : Mem) (instruction : Nat) : CPU × Mem :=
  let dest_reg := (instruction >>> 9) &&& 0x7
  let source_reg := instruction &&& 0x7
  let source_value := toI32 (c.data_registers source_reg)
  let dest_value := toI32 (c.data_registers dest_reg)
  let result := wrapI32 (dest_value + source_value)
  let c1 := setD c dest_reg (intAsU32 result)
  let c2 := { c1 with
    condition_code_register := update_flags_for_result c1.condition_code_register result }
  ({ c2 with program_counter := asU32 (c2.program_counter + 2) }, m)

/-- `CPU::execute_instruction`: one fetch-decode-execute cycle. -/
def execute_instruction (c : CPU) (m : Mem) : CPU × Mem :=
  let instruction := read_word m c.program_counter
  let opcode := (instruction >>> 12) &&& 0xF
  match opcode with
  | 0x0 => miscellaneous_instruction c m instruction
  | 0x1 => move_instruction c m instruction
  | 0x2 => move_instruction c m instruction
  | 0x3 => move_instruction c m instruction
  | 0x4 => miscellaneous_instruction c m instruction
  | 0x5 => addq_subq_instruction c m instruction
  | 0x6 => branch_instruction c m instruction
  | 0x7 => moveq_instruction c m instruction
  | 0x8 => unimplemented_instruction c m
  | 0x9 => sub_cmp_instruction c m instruction
  | 0xA => unimplemented_instruction c m
  | 0xB => sub_cmp_instruction c m instruction
  | 0xC => and_instruction c m instruction
  | 0xD => add_instruction c m instruction
  | 0xE => unimplemented_instruction c m
  | _ => unimplemented_instruction c m

/-- Iterate `execute_instruction` a fixed number of cycles. -/
def stepN : Nat → CPU × Mem → CPU × Mem
  | 0, s => s
  | n + 1, s => stepN n (execute_instruction s.1 s.2)

/-! ## Text utilities

The assembler works on Rust `&str` values; we model them as `List Char` and
give structural-recursion versions of the string operations the Rust code
uses (`trim`, `to_uppercase`, `split`, `splitn`, `contains`, `starts_with`,
`split_whitespace`, numeric parsing). -/

/-- Rust `str::trim`. -/
def trimChars (cs : List Char) : List Char :=
  ((cs.dropWhile Char.isWhitespace).reverse.dropWhile Char.isWhitespace).reverse

/-- Rust `str::to_uppercase` (the sources only use ASCII). -/
def toUpperChars (cs : List Char) : List Char := cs.map Char.toUpper

/-- Rust `str::split(sep)`. -/
def splitOnChar (sep : Char) : List Char → List (List Char)
  | [] => [[]]
  | c :: cs =>
    if c = sep then [] :: splitOnChar sep cs
    else
      match splitOnChar sep cs with
      | [] => [[c]]
      | h :: t => (c :: h) :: t

/-- Split at every whitespace character (empty pieces kept). -/
def splitWsAll : List Char → List (List Char)
  | [] => [[]]
  | c :: cs =>
    if c.isWhitespace then [] :: splitWsAll cs
    else
      match splitWsAll cs with
      | [] => [[c]]
      | h :: t => (c :: h) :: t

/-- Rust `str::split_whitespace` (non-empty words only). -/
def split_whitespace (cs : List Char) : List (List Char) :=
  (splitWsAll cs).filter (fun w => ¬ w.isEmpty)

/-- Rust `str::starts_with`. -/
def startsWithStr (pre cs : List Char) : Bool := List.isPrefixOf pre cs

/-- Rust `str::contains(char)`. -/
def containsChar (c : Char) (cs : List Char) : Bool := cs.contains c

/-- Rust `str::contains(&str)`: substring containment. -/
def containsSub (pat : List Char) : List Char → Bool
  | [] => pat.isEmpty
  | c :: cs => List.isPrefixOf pat (c :: cs) || containsSub pat cs

/-- Rust `str::splitn(2, sep)`: the part before the first separator and,
when the separator occurs, the remainder after it. -/
def splitFirst (sep : Char) : List Char → List Char × Option (List Char)
  | [] => ([], none)
  | c :: cs =>
    if c = sep then ([], some cs)
    else
      let r := splitFirst sep cs
      (c :: r.1, r.2)

/-- Rust `[&str]::join(sep)`. -/
def joinWith (sep : List Char) : List (List Char) → List Char
  | [] => []
  | [w] => w
  | w :: ws => w ++ sep ++ joinWith sep ws

/-- Value of a decimal digit character. -/
def decDigit (c : Char) : Option Nat :=
  if c.isDigit then some (c.toNat - 48) else none

/-- Value of a hexadecimal digit character (both cases). -/
def hexDigit (c : Char) : Option Nat :=
  if c.isDigit then some (c.toNat - 48)
  else if ('a' ≤ c ∧ c ≤ 'f') then some (c.toNat - 87)
  else if ('A' ≤ c ∧ c ≤ 'F') then some (c.toNat - 55)
  else none

/-- Accumulate digit values left to right. -/
def digitsAcc (base : Nat) (digitOf : Char → Option Nat) : List Char → Nat → Option Nat
  | [], acc => some acc
  | c :: cs, acc =>
    match digitOf c with
    | some d => digitsAcc base digitOf cs (acc * base + d)
    | none => none

/-- Parse a non-empty digit string. -/
def parseDigits (base : Nat) (digitOf : Char → Option Nat) (cs : List Char) : Option Nat :=
  if cs.isEmpty then none else digitsAcc base digitOf cs 0

/-- Rust unsigned `parse`/`from_str_radix`: optional `+` sign, digits, and a
range check (overflow is an error). -/
def parseUnsigned (limit base : Nat) (digitOf : Char → Option Nat) (cs : List Char) : Option Nat :=
  let body := match cs with
    | c :: rest => if c = ('+') then rest else cs
    | [] => []
  match parseDigits base digitOf body with
  | some v => if v ≤ limit then some v else none
  | none => none

/-- Rust `i8` `parse`/`from_str_radix`: optional sign, digits, range check. -/
def parseSignedI8 (base : Nat) (digitOf : Char → Option Nat) (cs : List Char) : Option Int :=
  match cs with
  | [] => none
  | c :: rest =>
    if c = ('-') then
      match parseDigits base digitOf rest with
      | some v => if v ≤ 128 then some (-(v : Int)) else none
      | none => none
    else
      let body := if c = ('+') then rest else c :: rest
      match parseDigits base digitOf body with
      | some v => if v ≤ 127 then some ((v : Int)) else none
      | none => none

/-! ## Assembler (`assembler.rs`) -/

/-- `struct AssemblyInstruction`. -/
structure AssemblyInstruction where
  address : Nat
  mnemonic : List Char
  operands : List (List Char)
  machine_code : Option Nat
  extension_word : Option Nat
  size : Nat

/-- The assembler's label table (`HashMap<String, u32>` where the most recent
insertion wins), modelled as an association list with newest entries first. -/
def Labels : Type := List (List Char × Nat)

/-- `HashMap::get`. -/
def lookupLabel (labels : Labels) (k : List Char) : Option Nat :=
  match labels with
  | [] => none
  | p :: rest => if p.1 = k then some p.2 else lookupLabel rest k

/-- `Assembler::parse_data_register`: `Dn` with `n ≤ 7`. -/
def parse_data_register (operand : List Char) : Option Nat :=
  match operand with
  | [c0, c1] =>
    if c0 = ('D') ∧ c1.isDigit then
      let num := c1.toNat - 48
      if num ≤ 7 then some num else none
    else none
  | _ => none

/-- `Assembler::parse_address_register`: `An` with `n ≤ 7`. -/
def parse_address_register (operand : List Char) : Option Nat :=
  match operand with
  | [c0, c1] =>
    if c0 = ('A') ∧ c1.isDigit then
      let num := c1.toNat - 48
      if num ≤ 7 then some num else none
    else none
  | _ => none

/-- `Assembler::parse_indirect_register`: `(An)`. -/
def parse_indirect_register (operand : List Char) : Option Nat :=
  if operand.head? = some ('(') ∧ operand.getLast? = some (')') then
    parse_address_register ((operand.drop 1).dropLast)
  else none

/-- `Assembler::parse_immediate`: `#value` as a signed 8-bit integer,
decimal or hexadecimal via `0x`/`$`. -/
def parse_immediate (operand : List Char) : Option Int :=
  match operand with
  | c :: value_str =>
    if c = ('#') then
      if startsWithStr ("0x".data) value_str ∨ startsWithStr ("$".data) value_str then
        let hex_str := if startsWithStr ("0x".data) value_str then value_str.drop 2
          else value_str.drop 1
        parseSignedI8 16 hexDigit hex_str
      else
        parseSignedI8 10 decDigit value_str
    else none
  | [] => none

/-- `Assembler::parse_immediate_u16`: `#value` as an unsigned 16-bit integer. -/
def parse_immediate_u16 (operand : List Char) : Option Nat :=
  match operand with
  | c :: value_str =>
    if c = ('#') then
      if startsWithStr ("0x".data) value_str ∨ startsWithStr ("$".data) value_str then
        let hex_str := if startsWithStr ("0x".data) value_str then value_str.drop 2
          else value_str.drop 1
        parseUnsigned 65535 16 hexDigit hex_str
      else
        parseUnsigned 65535 10 decDigit value_str
    else none
  | [] => none

/-- `Assembler::parse_immediate_address`: `$hex`, `0xhex`, decimal, or a
label lookup, truncated to 16 bits. -/
def parse_immediate_address (labels : Labels) (operand : List Char) : Option Nat :=
  if startsWithStr ("$".data) operand then
    parseUnsigned 65535 16 hexDigit (operand.drop 1)
  else if startsWithStr ("0x".data) operand then
    parseUnsigned 65535 16 hexDigit (operand.drop 2)
  else if operand.all (fun c => c.isDigit) then
    parseUnsigned 65535 10 decDigit operand
  else
    match lookupLabel labels operand with
    | some address => some (asU16 address)
    | none => none

/-- `Assembler::parse_branch_displacement`: label-relative displacement from
`current_address + 2` (must fit in a signed byte), or a literal `+N`/`-N`. -/
def parse_branch_displacement (labels : Labels) (operand : List Char) (current_address : Nat) :
    Option Int :=
  let viaLabel : Option Int :=
    match lookupLabel labels operand with
    | some target_address =>
      let displacement := toI32 target_address - toI32 current_address - 2
      if -128 ≤ displacement ∧ displacement ≤ 127 then some displacement else none
    | none => none
  match viaLabel with
  | some d => some d
  | none =>
    if startsWithStr ("+".data) operand ∨ startsWithStr ("-".data) operand then
      parseSignedI8 10 decDigit operand
    else none

/-- `Assembler::parse_org_directive`. -/
def parse_org_directive (line : List Char) : Option Nat :=
  match split_whitespace line with
  | _ :: addr_str :: _ =>
    if startsWithStr ("$".data) addr_str then
      parseUnsigned 4294967295 16 hexDigit (addr_str.drop 1)
    else if startsWithStr ("0x".data) addr_str then
      parseUnsigned 4294967295 16 hexDigit (addr_str.drop 2)
    else
      parseUnsigned 4294967295 10 decDigit addr_str
  | _ => none

/-- `Assembler::parse_data_directive_with_value`: label, size in bytes and
optional initial value of a `DC.*`/`DS.*` directive. -/
def parse_data_directive_with_value (line : List Char) :
    Option (List Char × Nat × Option Nat) :=
  let line_upper := toUpperChars line
  let labelDir : List Char × List Char :=
    if containsChar (':') line then
      let sp := splitFirst (':') line
      (trimChars sp.1, trimChars ((sp.2).getD []))
    else
      match split_whitespace line with
      | p0 :: p1 :: rest =>
        let first_word := toUpperChars p0
        if ¬ startsWithStr ("DC".data) first_word ∧ ¬ startsWithStr ("DS".data) first_word then
          (p0, joinWith (" ".data) (p1 :: rest))
        else ([], line)
      | _ => ([], line)
  let size : Nat :=
    if containsSub ("DC.L".data) line_upper ∨ containsSub ("DS.L".data) line_upper then 4
    else if containsSub ("DC.W".data) line_upper ∨ containsSub ("DS.W".data) line_upper then 2
    else if containsSub ("DC.B".data) line_upper ∨ containsSub ("DS.B".data) line_upper then 1
    else 2
  let value : Option Nat :=
    if containsSub ("DC.".data) line_upper then
      match split_whitespace labelDir.2 with
      | _ :: v :: _ =>
        let value_str := trimChars v
        if startsWithStr ("$".data) value_str then
          parseUnsigned 4294967295 16 hexDigit (value_str.drop 1)
        else if startsWithStr ("0x".data) value_str then
          parseUnsigned 4294967295 16 hexDigit (value_str.drop 2)
        else
          parseUnsigned 4294967295 10 decDigit value_str
      | _ => none
    else none
  some (labelDir.1, size, value)

/-- `Assembler::parse_instruction`: split a source line into mnemonic,
operands and instruction size (2, or 4 when an extension word follows). -/
def parse_instruction (line : List Char) (address : Nat) : AssemblyInstruction :=
  match split_whitespace line with
  | [] =>
    { address := address, mnemonic := [], operands := [], machine_code := none
      extension_word := none, size := 2 }
  | p0 :: rest =>
    let mnemonic_parts := splitOnChar ('.') p0
    let mnemonic := toUpperChars (mnemonic_parts.headD [])
    let operands : List (List Char) :=
      if rest.isEmpty then []
      else
        ((splitOnChar (',') (joinWith (" ".data) rest)).map trimChars).filter
          (fun s => ¬ s.isEmpty)
    let size : Nat :=
      if operands.length ≥ 2 then
        let src := operands.headD []
        let dst := operands.getLastD []
        if (mnemonic = ("MOVE".data) ∨ mnemonic = ("MOVEA".data)) ∧
            mnemonic_parts.get? 1 = some ("L".data) then
          if startsWithStr ("#".data) src ∨
              (¬ startsWithStr ("D".data) src ∧ ¬ startsWithStr ("A".data) src ∧
                ¬ startsWithStr ("(".data) src) then 4
          else if ¬ startsWithStr ("D".data) dst ∧ ¬ startsWithStr ("A".data) dst ∧
              ¬ startsWithStr ("(".data) dst then 4
          else 2
        else if mnemonic = ("CMP".data) ∧ mnemonic_parts.get? 1 = some ("L".data) ∧
            startsWithStr ("#".data) src then 4
        else if mnemonic = ("MULS".data) ∧ startsWithStr ("#".data) src then 4
        else 2
      else 2
    { address := address, mnemonic := mnemonic, operands := operands, machine_code := none
      extension_word := none, size := size }

/-- `Assembler::encode_moveq`. -/
def encode_moveq (instruction : AssemblyInstruction) : Option Nat :=
  match instruction.operands with
  | [op0, op1] =>
    match parse_immediate op0, parse_data_register op1 with
    | some immediate, some register =>
      some (0x7000 ||| (register <<< 9) ||| (intAsU8 immediate))
    | _, _ => none
  | _ => none

/-- `Assembler::encode_move_with_ext`: the six supported MOVE forms, tried
in source order (a failed form falls through to the next). -/
def encode_move_with_ext (labels : Labels) (instruction : AssemblyInstruction) :
    Option (Nat × Option Nat) :=
  match instruction.operands with
  | [source, dest] =>
    let try1 : Option (Nat × Option Nat) :=
      if startsWithStr ("#".data) source then
        match parse_data_register dest, parse_immediate_u16 source with
        | some dest_reg, some imm_value =>
          some (0x21FC ||| (dest_reg <<< 9), some imm_value)
        | _, _ => none
      else none
    match try1 with
    | some r => some r
    | none =>
    let try2 : Option (Nat × Option Nat) :=
      match parse_indirect_register source, parse_data_register dest with
      | some src_areg, some dest_reg =>
        some (0x2010 ||| (dest_reg <<< 9) ||| src_areg, none)
      | _, _ => none
    match try2 with
    | some r => some r
    | none =>
    let try3 : Option (Nat × Option Nat) :=
      match parse_data_register source, parse_indirect_register dest with
      | some src_reg, some dest_areg =>
        some (0x2080 ||| (dest_areg <<< 9) ||| src_reg, none)
      | _, _ => none
    match try3 with
    | some r => some r
    | none =>
    let try4 : Option (Nat × Option Nat) :=
      match parse_data_register source, parse_data_register dest with
      | some source_reg, some dest_reg =>
        some (0x3000 ||| (dest_reg <<< 9) ||| source_reg, none)
      | _, _ => none
    match try4 with
    | some r => some r
    | none =>
    let try5 : Option (Nat × Option Nat) :=
      match parse_data_register dest, lookupLabel labels source with
      | some dest_reg, some label_addr =>
        some (0x2078 ||| (dest_reg <<< 9), some (asU16 label_addr))
      | _, _ => none
    match try5 with
    | some r => some r
    | none =>
    match parse_data_register source, lookupLabel labels dest with
    | some source_reg, some label_addr =>
      some (0x23C0 ||| source_reg, some (asU16 label_addr))
    | _, _ => none
  | _ => none

/-- `Assembler::encode_movea_with_ext`: `MOVEA.L #label, An` only. -/
def encode_movea_with_ext (labels : Labels) (instruction : AssemblyInstruction) :
    Option (Nat × Option Nat) :=
  match instruction.operands with
  | [source, dest] =>
    if startsWithStr ("#".data) source then
      match parse_address_register dest with
      | some dest_areg =>
        let label_name := source.drop 1
        match lookupLabel labels label_name with
        | some label_addr => some (0x207C ||| (dest_areg <<< 9), some (asU16 label_addr))
        | none => none
      | none => none
    else none
  | _ => none

/-- `Assembler::encode_muls_with_ext`. -/
def encode_muls_with_ext (instruction : AssemblyInstruction) : Option (Nat × Option Nat) :=
  match instruction.operands with
  | [source, dest] =>
    match parse_data_register dest with
    | some dest_reg =>
      if startsWithStr ("#".data) source then
        match parse_immediate_u16 source with
        | some imm_value => some (0xC1FC ||| (dest_reg <<< 9), some imm_value)
        | none => none
      else
        match parse_data_register source with
        | some src_reg => some (0xC1C0 ||| (dest_reg <<< 9) ||| src_reg, none)
        | none => none
    | none => none
  | _ => none

/-- `Assembler::encode_branch`: `0110 CCCC DDDDDDDD`. -/
def encode_branch (labels : Labels) (instruction : AssemblyInstruction) (condition : Nat) :
    Option Nat :=
  match instruction.operands with
  | [] => none
  | op0 :: _ =>
    match parse_branch_displacement labels op0 instruction.address with
    | some displacement =>
      some (0x6000 ||| (condition <<< 8) ||| intAsU8 displacement)
    | none => none

/-- `Assembler::encode_add`. -/
def encode_add (instruction : AssemblyInstruction) : Option Nat :=
  match instruction.operands with
  | [op0, op1] =>
    match parse_data_register op0, parse_data_register op1 with
    | some source_reg, some dest_reg =>
      some (0xD040 ||| (dest_reg <<< 9) ||| source_reg)
    | _, _ => none
  | _ => none

/-- `Assembler::encode_sub`. -/
def encode_sub (instruction : AssemblyInstruction) : Option Nat :=
  match instruction.operands with
  | [op0, op1] =>
    match parse_data_register op0, parse_data_register op1 with
    | some source_reg, some dest_reg =>
      some (0x9040 ||| (dest_reg <<< 9) ||| source_reg)
    | _, _ => none
  | _ => none

/-- `Assembler::encode_cmp_with_ext`: `CMPI.L #imm, Dn` or `CMP Dx, Dy`. -/
def encode_cmp_with_ext (instruction : AssemblyInstruction) : Option (Nat × Option Nat) :=
  match instruction.operands with
  | [op0, op1] =>
    if startsWithStr ("#".data) op0 then
      match parse_immediate_u16 op0, parse_data_register op1 with
      | some immediate, some dest_reg => some (0x0C80 ||| dest_reg, some immediate)
      | _, _ => none
    else
      match parse_data_register op0, parse_data_register op1 with
      | some source_reg, some dest_reg =>
        some (0xB040 ||| (dest_reg <<< 9) ||| source_reg, none)
      | _, _ => none
  | _ => none

/-- `Assembler::encode_jump`. -/
def encode_jump (labels : Labels) (instruction : AssemblyInstruction) : Option Nat :=
  match instruction.operands with
  | [op0] =>
    if (parse_immediate_address labels op0).isSome then some 0x4EF8 else none
  | _ => none

/-- `Assembler::encode_tst`. -/
def encode_tst (instruction : AssemblyInstruction) : Option Nat :=
  match instruction.operands with
  | [op0] =>
    match parse_data_register op0 with
    | some reg => some (0x4A80 ||| reg)
    | none => none
  | _ => none

/-- `Assembler::encode_subq`. -/
def encode_subq (instruction : AssemblyInstruction) : Option Nat :=
  match instruction.operands with
  | [op0, op1] =>
    match parse_immediate op0, parse_data_register op1 with
    | some imm, some reg =>
      let immediate := intAsU16 imm
      let data := if immediate = 8 then 0 else immediate &&& 0x7
      some (0x5180 ||| (data <<< 9) ||| reg)
    | _, _ => none
  | _ => none

/-- `Assembler::encode_asl`. -/
def encode_asl (instruction : AssemblyInstruction) : Option Nat :=
  match instruction.operands with
  | [op0, op1] =>
    match parse_immediate op0, parse_data_register op1 with
    | some imm, some reg =>
      let shift_count := intAsU16 imm
      let count := if shift_count = 8 then 0 else shift_count &&& 0x7
      some (0xE180 ||| (count <<< 9) ||| reg)
    | _, _ => none
  | _ => none

/-- `Assembler::encode_dbra`. -/
def encode_dbra (labels : Labels) (instruction : AssemblyInstruction) : Option Nat :=
  match instruction.operands with
  | [op0, op1] =>
    match parse_data_register op0 with
    | some reg =>
      match parse_branch_displacement labels op1 instruction.address with
      | some _ => some (0x51C8 ||| reg)
      | none => none
    | none => none
  | _ => none

/-- `Assembler::encode_instruction_with_ext`: dispatch on the mnemonic. -/
def encode_instruction_with_ext (labels : Labels) (instruction : AssemblyInstruction) :
    Option (Nat × Option Nat) :=
  let mn := instruction.mnemonic
  if mn = ("MOVEQ".data) then (encode_moveq instruction).map (fun c => (c, none))
  else if mn = ("MOVE".data) then encode_move_with_ext labels instruction
  else if mn = ("MOVEA".data) then encode_movea_with_ext labels instruction
  else if mn = ("MULS".data) then encode_muls_with_ext instruction
  else if mn = ("TST".data) then (encode_tst instruction).map (fun c => (c, none))
  else if mn = ("SUBQ".data) then (encode_subq instruction).map (fun c => (c, none))
  else if mn = ("ASL".data) then (encode_asl instruction).map (fun c => (c, none))
  else if mn = ("DBRA".data) then (encode_dbra labels instruction).map (fun c => (c, none))
  else if mn = ("BRA".data) then (encode_branch labels instruction 0x0).map (fun c => (c, none))
  else if mn = ("BEQ".data) then (encode_branch labels instruction 0x7).map (fun c => (c, none))
  else if mn = ("BNE".data) then (encode_branch labels instruction 0x6).map (fun c => (c, none))
  else if mn = ("BCC".data) then (encode_branch labels instruction 0x4).map (fun c => (c, none))
  else if mn = ("BCS".data) then (encode_branch labels instruction 0x5).map (fun c => (c, none))
  else if mn = ("BPL".data) then (encode_branch labels instruction 0x8).map (fun c => (c, none))
  else if mn = ("BMI".data) then (encode_branch labels instruction 0x9).map (fun c => (c, none))
  else if mn = ("BGE".data) then (encode_branch labels instruction 0xC).map (fun c => (c, none))
  else if mn = ("BLT".data) then (encode_branch labels instruction 0xD).map (fun c => (c, none))
  else if mn = ("BGT".data) then (encode_branch labels instruction 0xE).map (fun c => (c, none))
  else if mn = ("BLE".data) then (encode_branch labels instruction 0xF).map (fun c => (c, none))
  else if mn = ("NOP".data) then some (0x4E71, none)
  else if mn = ("SIMHALT".data) then some (0x4E72, none)
  else if mn = ("ADD".data) then (encode_add instruction).map (fun c => (c, none))
  else if mn = ("SUB".data) then (encode_sub instruction).map (fun c => (c, none))
  else if mn = ("CMP".data) then encode_cmp_with_ext instruction
  else if mn = ("JMP".data) ∨ mn = ("JUMP".data) then
    (encode_jump labels instruction).map (fun c => (c, none))
  else none

/-- Pass-1 state of `Assembler::assemble`: current address, label table,
recorded `DC` data values, and parsed instructions (in source order). -/
structure AsmState where
  current_address : Nat
  labels : Labels
  data_values : List (Nat × Nat)
  instructions : List AssemblyInstruction

/-- The empty pass-1 state. -/
def asmInit : AsmState :=
  { current_address := 0, labels := [], data_values := [], instructions := [] }

/-- The part of the pass-1 loop body that handles a (label-stripped) line:
either a `DC.`/`DS.` data directive or an instruction. -/
def processRest (st : AsmState) (line : List Char) : AsmState :=
  if containsSub ("DC.".data) (toUpperChars line) ∨
      containsSub ("DS.".data) (toUpperChars line) then
    match parse_data_directive_with_value line with
    | some (label, size, value) =>
      let st1 := if ¬ label.isEmpty then
          { st with labels := (label, st.current_address) :: st.labels }
        else st
      let st2 := match value with
        | some val =>
          { st1 with data_values := st1.data_values ++ [(st1.current_address, val)] }
        | none => st1
      { st2 with current_address := st2.current_address + size }
    | none => st
  else
    let instruction := parse_instruction line st.current_address
    { st with
      current_address := st.current_address + instruction.size
      instructions := st.instructions ++ [instruction] }

/-- Pass 1 of `Assembler::assemble`: comments, `END`, `ORG`, labels, data
directives and instruction sizing. -/
def pass1 (st : AsmState) : List (List Char) → AsmState
  | [] => st
  | l :: ls =>
    let line := trimChars l
    if line.isEmpty ∨ startsWithStr (";".data) line then pass1 st ls
    else if startsWithStr ("END".data) (toUpperChars line) then st
    else if startsWithStr ("ORG".data) (toUpperChars line) then
      match parse_org_directive line with
      | some addr => pass1 { st with current_address := addr } ls
      | none => pass1 st ls
    else if containsChar (':') line then
      let sp := splitFirst (':') line
      let label_name := trimChars sp.1
      let st1 := { st with labels := (label_name, st.current_address) :: st.labels }
      let rest := trimChars ((sp.2).getD [])
      if rest.isEmpty then pass1 st1 ls
      else pass1 (processRest st1 rest) ls
    else pass1 (processRest st line) ls

/-- Pass-2 data emission: each recorded `DC` value split into two big-endian
16-bit words. -/
def dataWordsOf (data_values : List (Nat × Nat)) : List (Nat × Nat) :=
  data_values.foldl
    (fun acc p => acc ++ [(p.1, asU16 (p.2 >>> 16)), (p.1 + 2, asU16 (p.2 &&& 0xFFFF))]) []

/-- Pass-2 instruction emission: opcode word plus optional extension word;
an instruction whose encoder fails contributes nothing. -/
def codeWordsOf (labels : Labels) (instructions : List AssemblyInstruction) :
    List (Nat × Nat) :=
  instructions.foldl
    (fun acc inst =>
      match encode_instruction_with_ext labels inst with
      | some (code, ext_word) =>
        let acc1 := acc ++ [(inst.address, code)]
        match ext_word with
        | some ext => acc1 ++ [(inst.address + 2, ext)]
        | none => acc1
      | none => acc) []

/-- `Assembler::assemble`: two passes over the source lines, producing the
ordered `(address, word)` stream (data words first, then code words). -/
def assembleList (assembly_lines : List String) : List (Nat × Nat) :=
  let st := pass1 asmInit (assembly_lines.map String.data)
  dataWordsOf st.data_values ++ codeWordsOf st.labels st.instructions

/-! ## Arithmetic helper lemmas -/

theorem lor_layer : ∀ (k q r : Nat), r < 2 ^ k → (2 ^ k * q) ||| r = 2 ^ k * q + r
  | 0, q, r, h => by
    have hr : r = 0 := by omega
    subst hr
    simp
  | k + 1, q, r, h => by
    have hp : (2 : Nat) ^ (k + 1) = 2 * 2 ^ k := by ring
    have hy : 2 ^ (k + 1) * q = 2 * (2 ^ k * q) := by rw [hp]; ring
    have h2 : r / 2 < 2 ^ k := by omega
    have ih := lor_layer k q (r / 2) h2
    have hd : (2 ^ (k + 1) * q) / 2 = 2 ^ k * q := by omega
    have hdiv : ((2 ^ (k + 1) * q) ||| r) / 2 = (2 ^ (k + 1) * q) / 2 ||| r / 2 :=
      Nat.or_div_two
    rw [hd, ih] at hdiv
    have hmod2 : ((2 ^ (k + 1) * q) ||| r) % 2 = r % 2 := by
      have h1 := @Nat.or_mod_two_eq_one (2 ^ (k + 1) * q) r
      omega
    have hsplit := Nat.div_add_mod ((2 ^ (k + 1) * q) ||| r) 2
    omega

theorem shl8 (n : Nat) : n <<< 8 = n * 256 := by
  simp [Nat.shiftLeft_eq]

theorem shl9 (n : Nat) : n <<< 9 = n * 512 := by
  simp [Nat.shiftLeft_eq]

theorem shl16 (n : Nat) : n <<< 16 = n * 65536 := by
  simp [Nat.shiftLeft_eq]

theorem shr3 (n : Nat) : n >>> 3 = n / 8 := by
  simp [Nat.shiftRight_eq_div_pow]

theorem shr6 (n : Nat) : n >>> 6 = n / 64 := by
  simp [Nat.shiftRight_eq_div_pow]

theorem shr8 (n : Nat) : n >>> 8 = n / 256 := by
  simp [Nat.shiftRight_eq_div_pow]

theorem shr9 (n : Nat) : n >>> 9 = n / 512 := by
  simp [Nat.shiftRight_eq_div_pow]

theorem shr12 (n : Nat) : n >>> 12 = n / 4096 := by
  simp [Nat.shiftRight_eq_div_pow]

theorem shr16 (n : Nat) : n >>> 16 = n / 65536 := by
  simp [Nat.shiftRight_eq_div_pow]

theorem andm3 (n : Nat) : n &&& 3 = n % 4 := by
  have h := Nat.and_pow_two_sub_one_eq_mod n 2
  norm_num at h
  exact h

theorem andm7 (n : Nat) : n &&& 7 = n % 8 := by
  have h := Nat.and_pow_two_sub_one_eq_mod n 3
  norm_num at h
  exact h

theorem andm15 (n : Nat) : n &&& 15 = n % 16 := by
  have h := Nat.and_pow_two_sub_one_eq_mod n 4
  norm_num at h
  exact h

theorem andm255 (n : Nat) : n &&& 255 = n % 256 := by
  have h := Nat.and_pow_two_sub_one_eq_mod n 8
  norm_num at h
  exact h

theorem andm65535 (n : Nat) : n &&& 65535 = n % 65536 := by
  have h := Nat.and_pow_two_sub_one_eq_mod n 16
  norm_num at h
  exact h

theorem read_byte_lt (m : Mem) (a : Nat) : read_byte m a < 256 := by
  simp only [read_byte]
  omega

/-- Composing a 16-bit word back from its big-endian halves. -/
theorem word_compose (h b : Nat) (hb : b < 256) : (h <<< 8) ||| b = h * 256 + b := by
  have hl := lor_layer 8 h b (by omega)
  rw [show (2 : Nat) ^ 8 = 256 from rfl] at hl
  rw [shl8, Nat.mul_comm h 256]
  omega

/-- Composing a 32-bit long from its big-endian word halves. -/
theorem long_compose (h b : Nat) (hb : b < 65536) : (h <<< 16) ||| b = h * 65536 + b := by
  have hl := lor_layer 16 h b (by omega)
  rw [show (2 : Nat) ^ 16 = 65536 from rfl] at hl
  rw [shl16, Nat.mul_comm h 65536]
  omega

theorem read_word_lt (m : Mem) (a : Nat) : read_word m a < 65536 := by
  have h1 := read_byte_lt m a
  have h2 := read_byte_lt m (a + 1)
  simp only [read_word]
  rw [word_compose _ _ h2]
  omega

theorem toI8_bounds (n : Nat) : -128 ≤ toI8 n ∧ toI8 n ≤ 127 := by
  unfold toI8
  split_ifs <;> omega

theorem toI8_intAsU8 (d : Int) (h1 : -128 ≤ d) (h2 : d ≤ 127) : toI8 (intAsU8 d) = d := by
  unfold toI8 intAsU8
  split_ifs <;> omega

theorem toI32_of_lt (n : Nat) (h : n < 2147483648) : toI32 n = (n : Int) := by
  unfold toI32
  split_ifs <;> omega

/-- The Zero flag (bit 2) after a flag update is set exactly when the result
is zero. -/
theorem uf_bit2 (c : Nat) (r : Int) :
    (update_flags_for_result c r).testBit 2 = decide (r = 0) := by
  unfold update_flags_for_result
  by_cases h0 : r = 0 <;> by_cases h1 : r < 0 <;>
    simp [h0, h1, Nat.testBit_or, Nat.testBit_and,
      (by decide : Nat.testBit 4 2 = true), (by decide : Nat.testBit 8 2 = false),
      (by decide : Nat.testBit 251 2 = false), (by decide : Nat.testBit 247 2 = true)]

/-- The Negative flag (bit 3) after a flag update is set exactly when the
result is negative. -/
theorem uf_bit3 (c : Nat) (r : Int) :
    (update_flags_for_result c r).testBit 3 = decide (r < 0) := by
  unfold update_flags_for_result
  by_cases h0 : r = 0 <;> by_cases h1 : r < 0 <;>
    simp [h0, h1, Nat.testBit_or, Nat.testBit_and,
      (by decide : Nat.testBit 4 3 = false), (by decide : Nat.testBit 8 3 = true),
      (by decide : Nat.testBit 251 3 = true), (by decide : Nat.testBit 247 3 = false)]

/-- A flag update never touches the Carry bit (bit 0). -/
theorem uf_bit0 (c : Nat) (r : Int) :
    (update_flags_for_result c r).testBit 0 = c.testBit 0 := by
  unfold update_flags_for_result
  by_cases h0 : r = 0 <;> by_cases h1 : r < 0 <;>
    simp [h0, h1, Nat.testBit_or, Nat.testBit_and,
      (by decide : Nat.testBit 4 0 = false), (by decide : Nat.testBit 8 0 = false),
      (by decide : Nat.testBit 251 0 = true), (by decide : Nat.testBit 247 0 = true)]

/-- A flag update never touches the Overflow bit (bit 1). -/
theorem uf_bit1 (c : Nat) (r : Int) :
    (update_flags_for_result c r).testBit 1 = c.testBit 1 := by
  unfold update_flags_for_result
  by_cases h0 : r = 0 <;> by_cases h1 : r < 0 <;>
    simp [h0, h1, Nat.testBit_or, Nat.testBit_and,
      (by decide : Nat.testBit 4 1 = false), (by decide : Nat.testBit 8 1 = false),
      (by decide : Nat.testBit 251 1 = true), (by decide : Nat.testBit 247 1 = true)]

/-- Every handler either leaves the condition codes alone or routes them
through `update_flags_for_result` on the current CCR. -/
def CcrShape (c : CPU) (res : CPU) : Prop :=
  res.condition_code_register = c.condition_code_register ∨
    ∃ r, res.condition_code_register =
      update_flags_for_result c.condition_code_register r

theorem ccr_move (c : CPU) (m : Mem) (i : Nat) : CcrShape c (move_instruction c m i).1 := by
  unfold CcrShape
  simp only [move_instruction]
  split_ifs <;> simp [setD, setA]

theorem ccr_misc (c : CPU) (m : Mem) (i : Nat) :
    CcrShape c (miscellaneous_instruction c m i).1 := by
  unfold CcrShape
  simp only [miscellaneous_instruction]
  split_ifs <;> simp [setD, setA]

theorem ccr_addq (c : CPU) (m : Mem) (i : Nat) :
    CcrShape c (addq_subq_instruction c m i).1 := by
  unfold CcrShape
  simp only [addq_subq_instruction]
  split_ifs <;> simp [setD, setA]

theorem ccr_moveq (c : CPU) (m : Mem) (i : Nat) : CcrShape c (moveq_instruction c m i).1 := by
  unfold CcrShape
  simp only [moveq_instruction]
  simp [setD]

theorem ccr_branch (c : CPU) (m : Mem) (i : Nat) :
    CcrShape c (branch_instruction c m i).1 := by
  unfold CcrShape
  simp only [branch_instruction]
  split_ifs <;> simp

theorem ccr_unimpl (c : CPU) (m : Mem) : CcrShape c (unimplemented_instruction c m).1 := by
  unfold CcrShape
  simp [unimplemented_instruction]

theorem ccr_subcmp (c : CPU) (m : Mem) (i : Nat) :
    CcrShape c (sub_cmp_instruction c m i).1 := by
  unfold CcrShape
  simp only [sub_cmp_instruction]
  split_ifs <;> simp [setD]

theorem ccr_and (c : CPU) (m : Mem) (i : Nat) : CcrShape c (and_instruction c m i).1 := by
  unfold CcrShape
  simp only [and_instruction]
  split_ifs <;> simp [setD]

theorem ccr_add (c : CPU) (m : Mem) (i : Nat) : CcrShape c (add_instruction c m i).1 := by
  unfold CcrShape
  simp only [add_instruction]
  simp [setD]

theorem read_byte_write_word_same_hi (m : Mem) (a w : Nat) :
    read_byte (write_word m a w) a = (w >>> 8) % 256 := by
  simp [write_word, read_byte, write_byte, asU8]

theorem read_byte_write_word_same_lo (m : Mem) (a w : Nat) :
    read_byte (write_word m a w) (a + 1) = w % 256 := by
  simp [write_word, read_byte, write_byte, asU8, andm255]

theorem read_byte_write_word_ne (m : Mem) (b w x : Nat) (h1 : x ≠ b) (h2 : x ≠ b + 1) :
    read_byte (write_word m b w) x = read_byte m x := by
  simp [write_word, read_byte, write_byte, asU8, h1, h2]

/-- Word-level round trip: writing a 16-bit value and reading it back at the
same address returns it unchanged. -/
theorem read_word_write_word (m : Mem) (a w : Nat) (hw : w < 65536) :
    read_word (write_word m a w) a = w := by
  simp only [read_word, read_byte_write_word_same_hi, read_byte_write_word_same_lo]
  rw [word_compose _ _ (by omega)]
  rw [shr8]
  omega

/-- A word write at a disjoint address does not disturb a word read. -/
theorem read_word_write_word_ne (m : Mem) (b w x : Nat)
    (h1 : x ≠ b) (h2 : x ≠ b + 1) (h3 : x + 1 ≠ b) :
    read_word (write_word m b w) x = read_word m x := by
  simp only [read_word]
  rw [read_byte_write_word_ne _ _ _ _ h1 h2, read_byte_write_word_ne _ _ _ _ h3 (by omega)]

/-- One execution cycle leaves the CCR untouched or applies the flag-update
function to it. -/
theorem ccr_execute (s : CPU) (m : Mem) : CcrShape s (execute_instruction s m).1 := by
  simp only [execute_instruction]
  split
  · exact ccr_misc _ _ _
  · exact ccr_move _ _ _
  · exact ccr_move _ _ _
  · exact ccr_move _ _ _
  · exact ccr_misc _ _ _
  · exact ccr_addq _ _ _
  · exact ccr_branch _ _ _
  · exact ccr_moveq _ _ _
  · exact ccr_unimpl _ _
  · exact ccr_subcmp _ _ _
  · exact ccr_unimpl _ _
  · exact ccr_subcmp _ _ _
  · exact ccr_and _ _ _
  · exact ccr_add _ _ _
  · exact ccr_unimpl _ _
  · exact ccr_unimpl _ _

/-! ## Claims -/

/-- C10: `reset()` sets the program counter to 0, the condition-code register
to 0 and the status register to `0x2700`, and changes nothing else: all data
registers, all address registers, the supervisor stack pointer and the vector
base register keep their prior values. -/
theorem c10_reset_frame (s : CPU) :
    (reset s).program_counter = 0 ∧
    (reset s).condition_code_register = 0 ∧
    (reset s).status_register = 0x2700 ∧
    (reset s).data_registers = s.data_registers ∧
    (reset s).address_registers = s.address_registers ∧
    (reset s).supervisor_stack_pointer = s.supervisor_stack_pointer ∧
    (reset s).vector_base_register = s.vector_base_register :=
  ⟨rfl, rfl, rfl, rfl, rfl, rfl, rfl⟩

/-- After a long write, the word at the same address is the high half. -/
theorem read_word_write_long_hi (m : Mem) (a v : Nat) (hv : v < 4294967296) :
    read_word (write_long m a v) a = v >>> 16 := by
  have hhi : asU16 (v >>> 16) < 65536 := by unfold asU16; omega
  unfold write_long
  rw [read_word_write_word_ne _ _ _ _ (by omega) (by omega) (by omega)]
  rw [read_word_write_word _ _ _ hhi]
  rw [shr16]
  unfold asU16
  omega

/-- After a long write, the word two bytes on is the low half. -/
theorem read_word_write_long_lo (m : Mem) (a v : Nat) :
    read_word (write_long m a v) (a + 2) = v &&& 0xFFFF := by
  have hlo : asU16 (v &&& 0xFFFF) < 65536 := by unfold asU16; omega
  unfold write_long
  rw [read_word_write_word _ _ _ hlo]
  rw [andm65535]
  unfold asU16
  omega

/-- Long-word round trip through memory. -/
theorem read_long_write_long (m : Mem) (a v : Nat) (hv : v < 4294967296) :
    read_long (write_long m a v) a = v := by
  simp only [read_long, read_word_write_long_hi m a v hv, read_word_write_long_lo m a v]
  rw [long_compose _ _ (by rw [andm65535]; omega)]
  rw [shr16, andm65535]
  omega

/-- C6: for every in-range address, 16-bit word write/read at the same
address round-trips bit for bit (byte at the address is the high byte), and
32-bit long write/read round-trips order-preservingly: `read_word` at the
address returns the high half `v >>> 16` and at `address + 2` the low half
`v &&& 0xFFFF`. -/
theorem c6_memory_roundtrip (m : Mem) (a w v : Nat)
    (ha : a + 3 < 16777216) (hw : w < 65536) (hv : v < 4294967296) :
    read_word (write_word m a w) a = w ∧
    read_byte (write_word m a w) a = w >>> 8 ∧
    read_long (write_long m a v) a = v ∧
    read_word (write_long m a v) a = v >>> 16 ∧
    read_word (write_long m a v) (a + 2) = v &&& 0xFFFF := by
  refine ⟨read_word_write_word m a w hw, ?_, read_long_write_long m a v hv,
    read_word_write_long_hi m a v hv, read_word_write_long_lo m a v⟩
  rw [read_byte_write_word_same_hi, shr8]
  omega

/-- Witness for C6 at concrete inputs. -/
theorem c6_memory_roundtrip_witness :
    read_word (write_word mem_new 256 48879) 256 = 48879 ∧
    read_byte (write_word mem_new 256 48879) 256 = 48879 >>> 8 ∧
    read_long (write_long mem_new 256 305419896) 256 = 305419896 ∧
    read_word (write_long mem_new 256 305419896) 256 = 305419896 >>> 16 ∧
    read_word (write_long mem_new 256 305419896) (256 + 2) = 305419896 &&& 0xFFFF :=
  c6_memory_roundtrip mem_new 256 48879 305419896 (by decide) (by decide) (by decide)

/-- C4 counterexample: executing the MOVE instruction `MOVE.L #0,D0`
(opcode `0x21FC`, extension word 0, top nibble 2 = MOVE group) on a zeroed
CPU produces the 32-bit result 0 in D0, yet leaves the Zero flag (bit 2 of
the CCR) clear, because the immediate MOVE forms never update flags. -/
theorem c4_counterexample :
    (execute_instruction cpu_new (loadWords mem_new [(0, 0x21FC), (2, 0)])).1.data_registers 0
        = 0 ∧
    (execute_instruction cpu_new
        (loadWords mem_new [(0, 0x21FC), (2, 0)])).1.condition_code_register.testBit 2
        = false ∧
    read_word (loadWords mem_new [(0, 0x21FC), (2, 0)]) 0 >>> 12 = 2 := by
  decide

/-- C4 (amended): the flag-update routine sets the Zero flag (bit 2) iff the
signed result is zero and the Negative flag (bit 3) iff it is negative, and
no execution cycle ever modifies the Overflow (bit 1) or Carry (bit 0) bits.
The handlers for MOVEQ, ADD, SUB/CMP, ADDQ/SUBQ, CMPI, both MULS forms and
the register-to-register MOVE word `0x3200` all route their 32-bit signed
result through that routine, while the immediate MOVE and MOVEA forms and
both memory MOVE forms (`(An),Dn` and `Dn,(An)`) leave the condition codes
unchanged. -/
theorem c4_flag_update_policy :
    (∀ c r, ((update_flags_for_result c r).testBit 2 = true ↔ r = 0) ∧
        ((update_flags_for_result c r).testBit 3 = true ↔ r < 0) ∧
        (update_flags_for_result c r).testBit 1 = c.testBit 1 ∧
        (update_flags_for_result c r).testBit 0 = c.testBit 0) ∧
    (∀ s m, (execute_instruction s m).1.condition_code_register.testBit 1 =
          s.condition_code_register.testBit 1 ∧
        (execute_instruction s m).1.condition_code_register.testBit 0 =
          s.condition_code_register.testBit 0) ∧
    (∀ c m i, (moveq_instruction c m i).1.condition_code_register =
        update_flags_for_result c.condition_code_register (toI8 (i &&& 0xFF))) ∧
    (∀ c m i, (add_instruction c m i).1.condition_code_register =
        update_flags_for_result c.condition_code_register
          (wrapI32 (toI32 (c.data_registers ((i >>> 9) &&& 7)) +
            toI32 (c.data_registers (i &&& 7))))) ∧
    (∀ c m i, (sub_cmp_instruction c m i).1.condition_code_register =
        update_flags_for_result c.condition_code_register
          (wrapI32 (toI32 (c.data_registers ((i >>> 9) &&& 7)) -
            toI32 (c.data_registers (i &&& 7))))) ∧
    (∀ c m i, (addq_subq_instruction c m i).1.condition_code_register =
        update_flags_for_result c.condition_code_register
          (if (i &&& 0x100) ≠ 0 then
            wrapI32 (toI32 (c.data_registers (i &&& 7)) -
              (if (i >>> 9) &&& 7 = 0 then (8 : Int) else (((i >>> 9) &&& 7 : Nat) : Int)))
          else
            wrapI32 (toI32 (c.data_registers (i &&& 7)) +
              (if (i >>> 9) &&& 7 = 0 then (8 : Int) else (((i >>> 9) &&& 7 : Nat) : Int))))) ∧
    (∀ c m i, i &&& 0xFFF8 = 0x0C80 →
      (miscellaneous_instruction c m i).1.condition_code_register =
        update_flags_for_result c.condition_code_register
          (wrapI32 (toI32 (c.data_registers (i &&& 7)) -
            (read_word m (asU32 (c.program_counter + 2)) : Int)))) ∧
    (∀ c m i, (i >>> 6) &&& 7 = 7 → (i >>> 3) &&& 7 = 7 → i &&& 7 = 4 →
      (and_instruction c m i).1.condition_code_register =
        update_flags_for_result c.condition_code_register
          (toI16 (c.data_registers ((i >>> 9) &&& 7)) *
            toI16 (read_word m (asU32 (c.program_counter + 2))))) ∧
    (∀ c m i, (i >>> 6) &&& 7 = 7 → (i >>> 3) &&& 7 = 0 →
      (and_instruction c m i).1.condition_code_register =
        update_flags_for_result c.condition_code_register
          (toI16 (c.data_registers (i &&& 7)) *
            toI16 (c.data_registers ((i >>> 9) &&& 7)))) ∧
    (∀ c m, (move_instruction c m 0x3200).1.condition_code_register =
        update_flags_for_result c.condition_code_register (toI32 (c.data_registers 0))) ∧
    (∀ c m i, (i >>> 12) &&& 3 = 2 → (i >>> 6) &&& 7 = 7 → (i >>> 3) &&& 7 = 7 →
      i &&& 7 = 4 →
      (move_instruction c m i).1.condition_code_register = c.condition_code_register) ∧
    (∀ c m i, (i >>> 12) &&& 3 = 2 → (i >>> 6) &&& 7 = 1 → (i >>> 3) &&& 7 = 7 →
      i &&& 7 = 4 →
      (move_instruction c m i).1.condition_code_register = c.condition_code_register) ∧
    (∀ c m i, (i >>> 12) &&& 3 = 2 → (i >>> 6) &&& 7 = 0 → (i >>> 3) &&& 7 = 2 →
      (move_instruction c m i).1.condition_code_register = c.condition_code_register) ∧
    (∀ c m i, (i >>> 12) &&& 3 = 2 → (i >>> 6) &&& 7 = 2 → (i >>> 3) &&& 7 = 0 →
      (move_instruction c m i).1.condition_code_register = c.condition_code_register) := by
  refine ⟨?_, ?_, ?_, ?_, ?_, ?_, ?_, ?_, ?_, ?_, ?_, ?_, ?_, ?_⟩
  · intro c r
    refine ⟨?_, ?_, uf_bit1 c r, uf_bit0 c r⟩
    · rw [uf_bit2]
      simp
    · rw [uf_bit3]
      simp
  · intro s m
    rcases ccr_execute s m with h | ⟨r, h⟩
    · rw [h]
      exact ⟨rfl, rfl⟩
    · rw [h]
      exact ⟨uf_bit1 _ _, uf_bit0 _ _⟩
  · intro c m i
    simp [moveq_instruction, setD]
  · intro c m i
    simp [add_instruction, setD]
  · intro c m i
    simp only [sub_cmp_instruction]
    split_ifs <;> simp [setD]
  · intro c m i
    simp only [addq_subq_instruction]
    split_ifs <;> simp [setD]
  · intro c m i h
    simp [miscellaneous_instruction, h]
  · intro c m i h1 h2 h3
    simp [and_instruction, h1, h2, h3, setD]
  · intro c m i h1 h2
    simp [and_instruction, h1, h2, setD]
  · intro c m
    simp [move_instruction, setD]
  · intro c m i h1 h2 h3 h4
    simp [move_instruction, h1, h2, h3, h4, setD]
  · intro c m i h1 h2 h3 h4
    simp [move_instruction, h1, h2, h3, h4, setA]
  · intro c m i h1 h2 h3
    simp [move_instruction, h1, h2, h3, setD]
  · intro c m i h1 h2 h3
    simp [move_instruction, h1, h2, h3]

/-- Witness for C4 at concrete inputs: a zero result sets the Zero flag, a
concrete CMPI instruction routes its result through the flag routine, and
each immediate/memory MOVE and MOVEA form leaves the CCR untouched. -/
theorem c4_flag_update_policy_witness :
    (update_flags_for_result 0 0).testBit 2 = true ∧
    (miscellaneous_instruction cpu_new mem_new 0x0C80).1.condition_code_register =
      update_flags_for_result cpu_new.condition_code_register
        (wrapI32 (toI32 (cpu_new.data_registers (0x0C80 &&& 7)) -
          (read_word mem_new (asU32 (cpu_new.program_counter + 2)) : Int))) ∧
    (and_instruction cpu_new mem_new 0xC1FC).1.condition_code_register =
      update_flags_for_result cpu_new.condition_code_register
        (toI16 (cpu_new.data_registers ((0xC1FC >>> 9) &&& 7)) *
          toI16 (read_word mem_new (asU32 (cpu_new.program_counter + 2)))) ∧
    (move_instruction cpu_new mem_new 0x21FC).1.condition_code_register =
      cpu_new.condition_code_register ∧
    (move_instruction cpu_new mem_new 0x207C).1.condition_code_register =
      cpu_new.condition_code_register ∧
    (move_instruction cpu_new mem_new 0x2010).1.condition_code_register =
      cpu_new.condition_code_register ∧
    (move_instruction cpu_new mem_new 0x2080).1.condition_code_register =
      cpu_new.condition_code_register :=
  ⟨(c4_flag_update_policy.1 0 0).1.mpr rfl,
   c4_flag_update_policy.2.2.2.2.2.2.1 cpu_new mem_new 0x0C80 (by decide),
   c4_flag_update_policy.2.2.2.2.2.2.2.1 cpu_new mem_new 0xC1FC
     (by decide) (by decide) (by decide),
   c4_flag_update_policy.2.2.2.2.2.2.2.2.2.2.1 cpu_new mem_new 0x21FC
     (by decide) (by decide) (by decide) (by decide),
   c4_flag_update_policy.2.2.2.2.2.2.2.2.2.2.2.1 cpu_new mem_new 0x207C
     (by decide) (by decide) (by decide) (by decide),
   c4_flag_update_policy.2.2.2.2.2.2.2.2.2.2.2.2.1 cpu_new mem_new 0x2010
     (by decide) (by decide) (by decide),
   c4_flag_update_policy.2.2.2.2.2.2.2.2.2.2.2.2.2 cpu_new mem_new 0x2080
     (by decide) (by decide) (by decide)⟩

/-- C9: a branch word whose condition nibble is 0x1 or lies in 0x8..0xF is
never taken: for every CPU state (any flags), the program counter advances by
exactly 2. These are exactly the condition nibbles the assembler emits for
BPL, BMI, BGE, BLT, BGT and BLE (8, 9, 0xC, 0xD, 0xE, 0xF). -/
theorem c9_high_conditions_never_branch :
    (∀ (s : CPU) (m : Mem),
      (read_word m s.program_counter >>> 12) &&& 0xF = 6 →
      ((read_word m s.program_counter >>> 8) &&& 0xF = 1 ∨
        8 ≤ (read_word m s.program_counter >>> 8) &&& 0xF) →
      (execute_instruction s m).1.program_counter = asU32 (s.program_counter + 2)) ∧
    (∀ p, p ∈ ([("BPL".data, 8), ("BMI".data, 9), ("BGE".data, 12),
        ("BLT".data, 13), ("BGT".data, 14), ("BLE".data, 15)] :
        List (List Char × Nat)) →
      ∀ addr : Nat, encode_instruction_with_ext []
        { address := addr, mnemonic := p.1, operands := [("+0").data],
          machine_code := none, extension_word := none, size := 2 } =
        some (0x6000 ||| (p.2 <<< 8) ||| 0, none)) := by
  constructor
  · intro s m h6 hc
    simp only [execute_instruction]
    rw [h6]
    have hlt : (read_word m s.program_counter >>> 8) &&& 0xF < 16 := by
      rw [andm15]
      omega
    have hcond : check_condition s.condition_code_register
        ((read_word m s.program_counter >>> 8) &&& 0xF) = false := by
      rcases hc with h | h
      · rw [h]
        rfl
      · set q := (read_word m s.program_counter >>> 8) &&& 0xF with hq
        interval_cases q <;> rfl
    simp [branch_instruction, hcond]
  · intro p hp addr
    fin_cases hp <;> rfl

/-- Witness for C9: the assembled `BPL` word `0x6800` at a zeroed CPU only
advances the program counter by 2. -/
theorem c9_high_conditions_never_branch_witness :
    (execute_instruction cpu_new (loadWords mem_new [(0, 0x6800)])).1.program_counter =
      asU32 (cpu_new.program_counter + 2) ∧
    encode_instruction_with_ext []
        { address := 0, mnemonic := ("BPL").data, operands := [("+0").data],
          machine_code := none, extension_word := none, size := 2 } =
      some (0x6000 ||| (8 <<< 8) ||| 0, none) :=
  ⟨c9_high_conditions_never_branch.1 cpu_new (loadWords mem_new [(0, 0x6800)])
      (by decide) (Or.inr (by decide)),
   c9_high_conditions_never_branch.2 (("BPL").data, 8) (by decide) 0⟩

/-- Arithmetic form of an assembled branch word. -/
theorem branch_word_compose (cond b : Nat) (hc : cond < 16) (hb : b < 256) :
    (0x6000 : Nat) ||| (cond <<< 8) ||| b = 24576 + cond * 256 + b := by
  have h1 : (0x6000 : Nat) ||| (cond <<< 8) = 24576 + cond * 256 := by
    have h0 := lor_layer 13 3 (cond * 256) (by omega)
    rw [show ((2 : Nat) ^ 13 * 3) = 24576 from by norm_num] at h0
    rw [shl8]
    exact h0
  rw [h1]
  have h0 := lor_layer 8 (96 + cond) b hb
  rw [show ((2 : Nat) ^ 8 * (96 + cond)) = 24576 + cond * 256 from by ring] at h0
  exact h0

/-- Decoding an assembled branch word recovers the group nibble 6, the
condition nibble and the displacement byte. -/
theorem branch_word_fields (cond b : Nat) (hc : cond < 16) (hb : b < 256) :
    (((0x6000 : Nat) ||| (cond <<< 8) ||| b) >>> 12) &&& 0xF = 6 ∧
    (((0x6000 : Nat) ||| (cond <<< 8) ||| b) >>> 8) &&& 0xF = cond ∧
    ((0x6000 : Nat) ||| (cond <<< 8) ||| b) &&& 0xFF = b := by
  rw [branch_word_compose cond b hc hb, shr12, shr8, andm15, andm15, andm255]
  omega

/-- C2: for every branch mnemonic and every label in range (displacement
`target - (address + 2)` fitting a signed byte), the assembler encodes that
displacement into the branch word, and executing the branch word at that
address with its condition satisfied sets the program counter to
`address + displacement + 2`, which is exactly the label address. -/
theorem c2_branch_roundtrip (labels : Labels) (lbl : List Char)
    (target address : Nat) (s : CPU) (m : Mem)
    (hlook : lookupLabel labels lbl = some target)
    (htr : target < 16777216) (har : address < 16777216)
    (hlo : -128 ≤ (target : Int) - ((address : Int) + 2))
    (hhi : (target : Int) - ((address : Int) + 2) ≤ 127) :
    parse_branch_displacement labels lbl address =
      some ((target : Int) - ((address : Int) + 2)) ∧
    (∀ p, p ∈ ([(("BRA").data, 0x0), (("BEQ").data, 0x7), (("BNE").data, 0x6),
        (("BCC").data, 0x4), (("BCS").data, 0x5), (("BPL").data, 0x8),
        (("BMI").data, 0x9), (("BGE").data, 0xC), (("BLT").data, 0xD),
        (("BGT").data, 0xE), (("BLE").data, 0xF)] : List (List Char × Nat)) →
      encode_instruction_with_ext labels
          { address := address, mnemonic := p.1, operands := [lbl],
            machine_code := none, extension_word := none, size := 2 } =
        some (0x6000 ||| (p.2 <<< 8) |||
          intAsU8 ((target : Int) - ((address : Int) + 2)), none)) ∧
    (∀ cond, cond < 16 →
      s.program_counter = address →
      read_word m address = 0x6000 ||| (cond <<< 8) |||
        intAsU8 ((target : Int) - ((address : Int) + 2)) →
      check_condition s.condition_code_register cond = true →
      (execute_instruction s m).1.program_counter =
        intAsU32 ((address : Int) +
          ((target : Int) - ((address : Int) + 2)) + 2) ∧
      (execute_instruction s m).1.program_counter = target) := by
  have hdisp : parse_branch_displacement labels lbl address =
      some ((target : Int) - ((address : Int) + 2)) := by
    simp only [parse_branch_displacement, hlook]
    rw [toI32_of_lt target (by omega), toI32_of_lt address (by omega)]
    rw [if_pos ⟨by omega, by omega⟩]
    have he : (target : Int) - address - 2 = target - (address + 2) := by ring
    rw [he]
  refine ⟨hdisp, ?_, ?_⟩
  · intro p hp
    have harm : ∀ (inst : AssemblyInstruction) (cond : Nat),
        inst.operands = [lbl] → inst.address = address →
        (encode_branch labels inst cond).map (fun c => (c, (none : Option Nat))) =
          some (0x6000 ||| (cond <<< 8) |||
            intAsU8 ((target : Int) - ((address : Int) + 2)), (none : Option Nat)) := by
      intro inst cond hop haddr
      simp only [encode_branch, hop, haddr, hdisp]
      rfl
    fin_cases hp <;> exact harm _ _ rfl rfl
  · intro cond hcond hpc hread hcc
    set d : Int := (target : Int) - ((address : Int) + 2) with hdef
    have hd : (address : Int) + d + 2 = target := by rw [hdef]; ring
    have hb : intAsU8 d < 256 := by
      unfold intAsU8
      omega
    obtain ⟨hf1, hf2, hf3⟩ := branch_word_fields cond (intAsU8 d) hcond hb
    have hgoal : (execute_instruction s m).1.program_counter = target := by
      simp only [execute_instruction, hpc, hread]
      rw [hf1]
      simp only [branch_instruction, hf2, hf3, hcc, if_pos]
      rw [toI8_intAsU8 d (by omega) (by omega), hpc,
        toI32_of_lt address (by omega), hd]
      unfold intAsU32
      omega
    refine ⟨?_, hgoal⟩
    rw [hgoal, hd]
    unfold intAsU32
    omega

/-- Witness for C2: `BEQ EQUAL` at address 8 with `EQUAL = 16` encodes
displacement 6 into word `0x6706`, and executing it with the Zero flag set
lands on 16. -/
theorem c2_branch_roundtrip_witness :
    parse_branch_displacement [(("EQUAL").data, 16)] (("EQUAL").data) 8 = some 6 ∧
    (execute_instruction
        { cpu_new with program_counter := 8, condition_code_register := 4 }
        (loadWords mem_new [(8, 0x6706)])).1.program_counter = 16 := by
  have h := c2_branch_roundtrip [(("EQUAL").data, 16)] (("EQUAL").data) 16 8
      { cpu_new with program_counter := 8, condition_code_register := 4 }
      (loadWords mem_new [(8, 0x6706)])
      (by decide) (by decide) (by decide) (by decide) (by decide)
  constructor
  · have h1 := h.1
    norm_num at h1
    exact h1
  · exact (h.2.2 7 (by decide) rfl (by decide) (by decide)).2

/-- Arithmetic form of a MOVE-family opcode word `0x2000 + low` with a
3-bit register field spliced in at bit 9. -/
theorem movelike_word_compose (low n : Nat) (hl : low < 512) (hn : n < 8) :
    ((0x2000 + low : Nat)) ||| (n <<< 9) = 0x2000 + n * 512 + low := by
  have hbase : (0x2000 : Nat) ||| low = 0x2000 + low := by
    have h0 := lor_layer 13 1 low (by omega)
    rw [show ((2 : Nat) ^ 13 * 1) = 0x2000 from by norm_num] at h0
    exact h0
  have hinner : (n <<< 9) ||| low = n * 512 + low := by
    have h0 := lor_layer 9 n low hl
    rw [show ((2 : Nat) ^ 9) = 512 from rfl] at h0
    rw [shl9, Nat.mul_comm n 512]
    exact h0
  have houter : (0x2000 : Nat) ||| (n * 512 + low) = 0x2000 + (n * 512 + low) := by
    have h0 := lor_layer 13 1 (n * 512 + low) (by omega)
    rw [show ((2 : Nat) ^ 13 * 1) = 0x2000 from by norm_num] at h0
    exact h0
  calc (0x2000 + low : Nat) ||| (n <<< 9)
      = ((0x2000 : Nat) ||| low) ||| (n <<< 9) := by rw [hbase]
    _ = (0x2000 : Nat) ||| (low ||| (n <<< 9)) := Nat.or_assoc _ _ _
    _ = (0x2000 : Nat) ||| ((n <<< 9) ||| low) := by rw [Nat.or_comm low]
    _ = (0x2000 : Nat) ||| (n * 512 + low) := by rw [hinner]
    _ = 0x2000 + (n * 512 + low) := houter
    _ = 0x2000 + n * 512 + low := by ring

/-- Decoded fields of the `MOVE.L #imm, Dn` opcode word. -/
theorem move_imm_fields (n : Nat) (hn : n < 8) :
    (((0x21FC : Nat) ||| (n <<< 9)) >>> 12) &&& 0xF = 2 ∧
    (((0x21FC : Nat) ||| (n <<< 9)) >>> 12) &&& 0x3 = 2 ∧
    (((0x21FC : Nat) ||| (n <<< 9)) >>> 9) &&& 0x7 = n ∧
    (((0x21FC : Nat) ||| (n <<< 9)) >>> 6) &&& 0x7 = 7 ∧
    (((0x21FC : Nat) ||| (n <<< 9)) >>> 3) &&& 0x7 = 7 ∧
    ((0x21FC : Nat) ||| (n <<< 9)) &&& 0x7 = 4 := by
  rw [show (0x21FC : Nat) = 0x2000 + 0x1FC from rfl,
    movelike_word_compose 0x1FC n (by omega) hn,
    shr12, shr9, shr6, shr3, andm15, andm3, andm7, andm7, andm7, andm7]
  omega

/-- Decoded fields of the `MOVEA.L #label, An` opcode word. -/
theorem movea_imm_fields (n : Nat) (hn : n < 8) :
    (((0x207C : Nat) ||| (n <<< 9)) >>> 12) &&& 0xF = 2 ∧
    (((0x207C : Nat) ||| (n <<< 9)) >>> 12) &&& 0x3 = 2 ∧
    (((0x207C : Nat) ||| (n <<< 9)) >>> 9) &&& 0x7 = n ∧
    (((0x207C : Nat) ||| (n <<< 9)) >>> 6) &&& 0x7 = 1 ∧
    (((0x207C : Nat) ||| (n <<< 9)) >>> 3) &&& 0x7 = 7 ∧
    ((0x207C : Nat) ||| (n <<< 9)) &&& 0x7 = 4 := by
  rw [show (0x207C : Nat) = 0x2000 + 0x7C from rfl,
    movelike_word_compose 0x7C n (by omega) hn,
    shr12, shr9, shr6, shr3, andm15, andm3, andm7, andm7, andm7, andm7]
  omega

/-- C5 counterexample: the claim fails for immediate values as such.
`MOVEA.L #5,A0` assembles to no machine words at all (the assembler only
accepts `#label` sources for MOVEA), and `MOVE.L #65536,D0` also assembles
to nothing because immediates are parsed as unsigned 16-bit values. -/
theorem c5_counterexample :
    assembleList ["MOVEA.L #5,A0"] = [] ∧
    assembleList ["MOVE.L #65536,D0"] = [] := by
  decide

/-- C5 (amended): for every immediate that fits in 16 bits, `MOVE.L #imm,Dn`
encodes to an opcode word plus one extension word carrying `imm`, and
executing the opcode consumes the extension word: `Dn = imm` and the program
counter advances by 4. `MOVEA.L` is encodable only with a `#label` source
whose label resolves; its extension word is the label address truncated to
16 bits, and executing it loads the extension word into `An` and advances
the program counter by 4. -/
theorem c5_move_immediate (labels : Labels) (src dst srcA dstA : List Char)
    (imm n aN target addr : Nat) (s : CPU) (m : Mem)
    (hsh : startsWithStr (("#").data) src = true)
    (himm : parse_immediate_u16 src = some imm)
    (hpd : parse_data_register dst = some n)
    (hshA : startsWithStr (("#").data) srcA = true)
    (hpa : parse_address_register dstA = some aN)
    (hlab : lookupLabel labels (srcA.drop 1) = some target)
    (hn : n < 8) (haN : aN < 8)
    (hr1 : read_word m s.program_counter = 0x21FC ||| (n <<< 9))
    (hr2 : read_word m (asU32 (s.program_counter + 2)) = imm) :
    encode_instruction_with_ext labels
        { address := addr, mnemonic := ("MOVE").data, operands := [src, dst],
          machine_code := none, extension_word := none, size := 4 } =
      some (0x21FC ||| (n <<< 9), some imm) ∧
    encode_instruction_with_ext labels
        { address := addr, mnemonic := ("MOVEA").data, operands := [srcA, dstA],
          machine_code := none, extension_word := none, size := 4 } =
      some (0x207C ||| (aN <<< 9), some (asU16 target)) ∧
    ((execute_instruction s m).1.data_registers n = imm ∧
      (execute_instruction s m).1.program_counter = asU32 (s.program_counter + 4)) ∧
    (∀ (s' : CPU) (m' : Mem) (ext : Nat),
      read_word m' s'.program_counter = 0x207C ||| (aN <<< 9) →
      read_word m' (asU32 (s'.program_counter + 2)) = ext →
      (execute_instruction s' m').1.address_registers aN = ext ∧
      (execute_instruction s' m').1.program_counter = asU32 (s'.program_counter + 4)) := by
  refine ⟨?_, ?_, ?_, ?_⟩
  · have h : encode_move_with_ext labels
        { address := addr, mnemonic := ("MOVE").data, operands := [src, dst],
          machine_code := none, extension_word := none, size := 4 } =
        some (0x21FC ||| (n <<< 9), some imm) := by
      simp only [encode_move_with_ext, hsh, himm, hpd]
      rfl
    exact h
  · have h : encode_movea_with_ext labels
        { address := addr, mnemonic := ("MOVEA").data, operands := [srcA, dstA],
          machine_code := none, extension_word := none, size := 4 } =
        some (0x207C ||| (aN <<< 9), some (asU16 target)) := by
      simp only [encode_movea_with_ext, hshA, hpa, hlab]
      rfl
    exact h
  · obtain ⟨hf1, hf2, hf3, hf4, hf5, hf6⟩ := move_imm_fields n hn
    simp only [execute_instruction, hr1]
    rw [hf1]
    simp [move_instruction, hf2, hf3, hf4, hf5, hf6, setD, hr2]
    unfold asU32
    omega
  · intro s' m' ext hr1' hr2'
    obtain ⟨hf1, hf2, hf3, hf4, hf5, hf6⟩ := movea_imm_fields aN haN
    simp only [execute_instruction, hr1']
    rw [hf1]
    simp [move_instruction, hf2, hf3, hf4, hf5, hf6, setA, hr2']
    unfold asU32
    omega

/-- Witness for C5 at concrete inputs: `MOVE.L #5, D0` and
`MOVEA.L #VALUE, A3` with `VALUE = 0x1234`. -/
theorem c5_move_immediate_witness :
    encode_instruction_with_ext [(("VALUE").data, 0x1234)]
        { address := 0, mnemonic := ("MOVE").data,
          operands := [("#5").data, ("D0").data],
          machine_code := none, extension_word := none, size := 4 } =
      some (0x21FC ||| (0 <<< 9), some 5) ∧
    (execute_instruction cpu_new
        (loadWords mem_new [(0, 0x21FC), (2, 5)])).1.data_registers 0 = 5 := by
  have h := c5_move_immediate [(("VALUE").data, 0x1234)]
      (("#5").data) (("D0").data) (("#VALUE").data) (("A3").data)
      5 0 3 0x1234 0 cpu_new (loadWords mem_new [(0, 0x21FC), (2, 5)])
      (by decide) (by decide) (by decide) (by decide) (by decide) (by decide)
      (by decide) (by decide) (by decide) (by decide)
  exact ⟨h.1, h.2.2.1.1⟩

/-- The seven-line conditional-branch demo program of the specification. -/
def c1_program : List String :=
  ["MOVE.L #5,D0", "CMP.L #5,D0", "BEQ EQUAL", "MOVE.L #99,D1",
   "SIMHALT", "EQUAL: MOVE.L #42,D1", "SIMHALT"]

/-- The machine state after assembling `c1_program`, loading every emitted
`(address, word)` pair into a fresh memory, and running `k` cycles from a
freshly reset CPU. -/
def c1_state (k : Nat) : CPU × Mem :=
  stepN k (reset cpu_new, loadWords mem_new (assembleList c1_program))

/-- C1: running the assembled demo program from a reset CPU reaches, after 5
cycles, a state whose program counter no longer changes (the SIMHALT word),
with data register D1 equal to 42. -/
theorem c1_end_to_end :
    (c1_state 5).1.program_counter = (c1_state 4).1.program_counter ∧
    (c1_state 6).1.program_counter = (c1_state 5).1.program_counter ∧
    (c1_state 5).1.data_registers 1 = 42 := by
  decide

/-- The words pass 2 emits for a single parsed instruction: opcode word,
then the extension word when present; nothing when the encoder fails. -/
def emitted (labels : Labels) (inst : AssemblyInstruction) : List (Nat × Nat) :=
  match encode_instruction_with_ext labels inst with
  | some (code, some ext) => [(inst.address, code), (inst.address + 2, ext)]
  | some (code, none) => [(inst.address, code)]
  | none => []

theorem dataWords_fold (dvs : List (Nat × Nat)) : ∀ (acc : List (Nat × Nat)),
    dvs.foldl
        (fun acc p => acc ++ [(p.1, asU16 (p.2 >>> 16)), (p.1 + 2, asU16 (p.2 &&& 0xFFFF))])
        acc =
      acc ++ dvs.bind
        (fun p => [(p.1, asU16 (p.2 >>> 16)), (p.1 + 2, asU16 (p.2 &&& 0xFFFF))]) := by
  induction dvs with
  | nil => intro acc; simp
  | cons p rest ih =>
    intro acc
    simp only [List.foldl_cons, List.cons_bind]
    rw [ih]
    simp

/-- The data segment of the output is the per-value two-word emission, in
directive order. -/
theorem dataWordsOf_eq_bind (dvs : List (Nat × Nat)) :
    dataWordsOf dvs =
      dvs.bind (fun p => [(p.1, asU16 (p.2 >>> 16)), (p.1 + 2, asU16 (p.2 &&& 0xFFFF))]) := by
  unfold dataWordsOf
  rw [dataWords_fold]
  simp

theorem codeWords_fold (labels : Labels) (insts : List AssemblyInstruction) :
    ∀ (acc : List (Nat × Nat)),
    insts.foldl
        (fun acc inst =>
          match encode_instruction_with_ext labels inst with
          | some (code, ext_word) =>
            let acc1 := acc ++ [(inst.address, code)]
            match ext_word with
            | some ext => acc1 ++ [(inst.address + 2, ext)]
            | none => acc1
          | none => acc)
        acc =
      acc ++ insts.bind (emitted labels) := by
  induction insts with
  | nil => intro acc; simp
  | cons inst rest ih =>
    intro acc
    simp only [List.foldl_cons, List.cons_bind]
    rw [ih]
    rcases h : encode_instruction_with_ext labels inst with _ | ⟨code, _ | ext⟩ <;>
      simp [emitted, h]

/-- The code segment of the output is exactly the concatenation of each
parsed instruction's emission, in source order. -/
theorem codeWordsOf_eq_bind (labels : Labels) (insts : List AssemblyInstruction) :
    codeWordsOf labels insts = insts.bind (emitted labels) := by
  unfold codeWordsOf
  rw [codeWords_fold]
  simp

/-- Pass 1 ignores a run of blank and comment-only lines. -/
theorem pass1_skip (lines : List (List Char)) : ∀ st : AsmState,
    (∀ l ∈ lines, (trimChars l).isEmpty = true ∨
      startsWithStr ((";").data) (trimChars l) = true) →
    pass1 st lines = st := by
  induction lines with
  | nil => intro st h; rfl
  | cons l ls ih =>
    intro st h
    have hl := h l (by simp)
    simp only [pass1]
    rw [if_pos hl]
    exact ih st (fun x hx => h x (by simp [hx]))

/-- A `DS.L`-style directive line (size 4, no value) reserves 4 bytes:
no data value is recorded, the current address advances by 4 (so the next
symbol binds 4 bytes further), and only the optional label is added. -/
theorem processRest_ds (st : AsmState) (line lbl : List Char)
    (hds : containsSub (("DS.").data) (toUpperChars line) = true)
    (hparse : parse_data_directive_with_value line = some (lbl, 4, none)) :
    (processRest st line).data_values = st.data_values ∧
    (processRest st line).current_address = st.current_address + 4 ∧
    (processRest st line).instructions = st.instructions ∧
    (processRest st line).labels =
      (if lbl.isEmpty then st.labels else (lbl, st.current_address) :: st.labels) := by
  simp only [processRest]
  rw [if_pos (Or.inr hds)]
  rw [hparse]
  by_cases hl : lbl.isEmpty <;> simp [hl]

/-- C7: every `DC.L` value `v` recorded at address `a` during pass 1 is
emitted as the two big-endian words `(a, v >>> 16)` and `(a+2, v &&& 0xFFFF)`
in the data segment, which precedes all instruction words in the output;
loading those two words into any memory makes `read_long a` return `v`; and
a `DS.L` directive records no value while advancing the current address by 4,
binding only its optional label. -/
theorem c7_data_directives :
    (∀ (lines : List String) (a v : Nat),
      (a, v) ∈ (pass1 asmInit (lines.map String.data)).data_values →
      (a, asU16 (v >>> 16)) ∈
          dataWordsOf (pass1 asmInit (lines.map String.data)).data_values ∧
      (a + 2, asU16 (v &&& 0xFFFF)) ∈
          dataWordsOf (pass1 asmInit (lines.map String.data)).data_values ∧
      assembleList lines =
        dataWordsOf (pass1 asmInit (lines.map String.data)).data_values ++
          codeWordsOf (pass1 asmInit (lines.map String.data)).labels
            (pass1 asmInit (lines.map String.data)).instructions) ∧
    (∀ (M : Mem) (a v : Nat), v < 4294967296 →
      read_long (loadWords M [(a, asU16 (v >>> 16)), (a + 2, asU16 (v &&& 0xFFFF))]) a
        = v) ∧
    (∀ (st : AsmState) (line lbl : List Char),
      containsSub (("DS.").data) (toUpperChars line) = true →
      parse_data_directive_with_value line = some (lbl, 4, none) →
      (processRest st line).data_values = st.data_values ∧
      (processRest st line).current_address = st.current_address + 4 ∧
      (processRest st line).instructions = st.instructions ∧
      (processRest st line).labels =
        (if lbl.isEmpty then st.labels else (lbl, st.current_address) :: st.labels)) := by
  refine ⟨?_, ?_, processRest_ds⟩
  · intro lines a v hmem
    refine ⟨?_, ?_, rfl⟩
    · rw [dataWordsOf_eq_bind]
      exact List.mem_bind.mpr ⟨(a, v), hmem, by simp⟩
    · rw [dataWordsOf_eq_bind]
      exact List.mem_bind.mpr ⟨(a, v), hmem, by simp⟩
  · intro M a v hv
    show read_long (write_long M a v) a = v
    exact read_long_write_long M a v hv

/-- Witness for C7: `VALUE: DC.L $12345678` emits its two halves, the halves
recompose through `read_long`, and `X DS.L 1` advances the address by 4. -/
theorem c7_data_directives_witness :
    (0, asU16 (0x12345678 >>> 16)) ∈
      dataWordsOf (pass1 asmInit ((["VALUE: DC.L $12345678"]).map String.data)).data_values ∧
    read_long (loadWords mem_new
      [(0, asU16 (0x12345678 >>> 16)), (0 + 2, asU16 (0x12345678 &&& 0xFFFF))]) 0
      = 0x12345678 ∧
    (processRest asmInit (("X DS.L 1").data)).current_address =
      asmInit.current_address + 4 :=
  ⟨(c7_data_directives.1 ["VALUE: DC.L $12345678"] 0 0x12345678 (by decide)).1,
   c7_data_directives.2.1 mem_new 0 0x12345678 (by decide),
   (c7_data_directives.2.2 asmInit (("X DS.L 1").data) (("X").data)
      (by decide) (by decide)).2.1⟩

/-- C8: blank/comment-only input assembles to the empty word stream; the
code segment is exactly the concatenation of each parsed line's emission, so
a line whose encoder fails contributes no machine words while every other
encodable line's words are still emitted; concretely, an unknown mnemonic
between two valid lines drops only its own words. -/
theorem c8_best_effort :
    (∀ lines : List String,
      (∀ l ∈ lines, (trimChars (String.data l)).isEmpty = true ∨
        startsWithStr ((";").data) (trimChars (String.data l)) = true) →
      assembleList lines = []) ∧
    (∀ (labels : Labels) (insts : List AssemblyInstruction),
      codeWordsOf labels insts = insts.bind (emitted labels)) ∧
    (∀ (labels : Labels) (inst : AssemblyInstruction),
      encode_instruction_with_ext labels inst = none → emitted labels inst = []) ∧
    assembleList ["MOVEQ #1, D0", "FOO D0", "MOVEQ #2, D1"] =
      [(0, 0x7001), (4, 0x7202)] := by
  refine ⟨?_, codeWordsOf_eq_bind, ?_, by decide⟩
  · intro lines h
    unfold assembleList
    rw [pass1_skip (lines.map String.data) asmInit (by
      intro l hl
      obtain ⟨l0, hl0, heq⟩ := List.mem_map.mp hl
      subst heq
      exact h l0 hl0)]
    rfl
  · intro labels inst h
    simp only [emitted, h]

/-- Witness for C8: a comment line plus a blank line assemble to nothing,
and an unknown mnemonic emits no words. -/
theorem c8_best_effort_witness :
    assembleList ["; comment", "   "] = [] ∧
    emitted []
      { address := 2, mnemonic := ("FOO").data, operands := [("D0").data],
        machine_code := none, extension_word := none, size := 2 } = [] :=
  ⟨c8_best_effort.1 ["; comment", "   "] (by decide),
   c8_best_effort.2.2.1 []
     { address := 2, mnemonic := ("FOO").data, operands := [("D0").data],
       machine_code := none, extension_word := none, size := 2 }
     (by decide)⟩

/-- Advancing the program counter by one word never leaves it in place. -/
theorem asU32_add2_ne (x : Nat) : asU32 (x + 2) ≠ x := by
  unfold asU32
  omega

theorem asU32_add2_add2_ne (x : Nat) : asU32 (asU32 (x + 2) + 2) ≠ x := by
  unfold asU32
  omega

theorem branch_taken_pc (pc : Nat) (d : Int) (hpc : pc < 4294967296)
    (hlo : -128 ≤ d) (hhi : d ≤ 127) :
    (intAsU32 (toI32 pc + d + 2) = pc ↔ d = -2) := by
  unfold intAsU32 toI32
  split_ifs <;> omega

theorem pc_moveq (c : CPU) (m : Mem) (i : Nat) :
    (moveq_instruction c m i).1.program_counter = asU32 (c.program_counter + 2) := by
  simp [moveq_instruction, setD]

theorem pc_addq (c : CPU) (m : Mem) (i : Nat) :
    (addq_subq_instruction c m i).1.program_counter = asU32 (c.program_counter + 2) := by
  simp [addq_subq_instruction, setD]

theorem pc_subcmp (c : CPU) (m : Mem) (i : Nat) :
    (sub_cmp_instruction c m i).1.program_counter = asU32 (c.program_counter + 2) := by
  simp only [sub_cmp_instruction]
  split_ifs <;> simp [setD]

theorem pc_add (c : CPU) (m : Mem) (i : Nat) :
    (add_instruction c m i).1.program_counter = asU32 (c.program_counter + 2) := by
  simp [add_instruction, setD]

theorem pc_unimpl (c : CPU) (m : Mem) :
    (unimplemented_instruction c m).1.program_counter = asU32 (c.program_counter + 2) :=
  rfl

theorem pc_and (c : CPU) (m : Mem) (i : Nat) :
    (and_instruction c m i).1.program_counter =
        asU32 (asU32 (c.program_counter + 2) + 2) ∨
    (and_instruction c m i).1.program_counter = asU32 (c.program_counter + 2) := by
  simp only [and_instruction]
  split_ifs <;> simp [setD]

theorem pc_move (c : CPU) (m : Mem) (i : Nat) :
    (move_instruction c m i).1.program_counter =
        asU32 (asU32 (c.program_counter + 2) + 2) ∨
    (move_instruction c m i).1.program_counter = asU32 (c.program_counter + 2) := by
  simp only [move_instruction]
  split_ifs <;> simp [setD, setA]

theorem pc_misc (c : CPU) (m : Mem) (i : Nat) :
    (miscellaneous_instruction c m i).1.program_counter =
      (if i &&& 0xFFF8 = 0x0C80 then asU32 (asU32 (c.program_counter + 2) + 2)
       else if i = 0x4EF8 then read_word m (asU32 (c.program_counter + 2))
       else if i = 0x4E71 then asU32 (c.program_counter + 2)
       else if i = 0x4E72 then c.program_counter
       else asU32 (c.program_counter + 2)) := by
  simp only [miscellaneous_instruction]
  split_ifs <;> simp

theorem pc_branch (c : CPU) (m : Mem) (i : Nat) :
    (branch_instruction c m i).1.program_counter =
      (if check_condition c.condition_code_register ((i >>> 8) &&& 0xF)
       then intAsU32 (toI32 c.program_counter + toI8 (i &&& 0xFF) + 2)
       else asU32 (c.program_counter + 2)) := by
  simp only [branch_instruction]
  split_ifs <;> simp

/-- C3 counterexample: the word `0x60FE` (`BRA -2`, a taken branch with
displacement `-2`) also leaves the program counter unchanged although it is
not SIMHALT, so an unchanged program counter does not detect SIMHALT "and
nothing else". -/
theorem c3_counterexample :
    (execute_instruction cpu_new (loadWords mem_new [(0, 0x60FE)])).1.program_counter =
      cpu_new.program_counter ∧
    read_word (loadWords mem_new [(0, 0x60FE)]) cpu_new.program_counter ≠ 0x4E72 := by
  decide

/-- C3 (amended): across a single `execute_instruction` cycle the program
counter is left unchanged exactly when the fetched word is SIMHALT
(`0x4E72`), a JMP (`0x4EF8`) whose target word equals the current program
counter, or a taken branch whose 8-bit displacement is `-2`; executing
`0x4E72` never changes the program counter (right-to-left direction with the
first disjunct), but comparing the program counter before and after a step
also flags these self-jumps, not only SIMHALT. -/
theorem c3_pc_stall_iff (s : CPU) (m : Mem) (hpc : s.program_counter < 4294967296) :
    ((execute_instruction s m).1.program_counter = s.program_counter ↔
      (read_word m s.program_counter = 0x4E72 ∨
       (read_word m s.program_counter = 0x4EF8 ∧
         read_word m (asU32 (s.program_counter + 2)) = s.program_counter) ∨
       ((read_word m s.program_counter >>> 12) &&& 0xF = 6 ∧
         check_condition s.condition_code_register
           ((read_word m s.program_counter >>> 8) &&& 0xF) = true ∧
         toI8 (read_word m s.program_counter &&& 0xFF) = -2))) := by
  simp only [execute_instruction]
  split <;> rename_i heq
  · -- 0x0: miscellaneous
    rw [pc_misc]
    split_ifs with h1 h2 h3 h4
    · apply iff_of_false (asU32_add2_add2_ne _)
      rintro (h | ⟨h, _⟩ | ⟨h6, _, _⟩)
      · rw [h] at h1; exact absurd h1 (by decide)
      · rw [h] at h1; exact absurd h1 (by decide)
      · omega
    · constructor
      · intro h
        exact Or.inr (Or.inl ⟨h2, h⟩)
      · rintro (h | ⟨_, h⟩ | ⟨h6, _, _⟩)
        · rw [h] at h2; exact absurd h2 (by decide)
        · exact h
        · omega
    · apply iff_of_false (asU32_add2_ne _)
      rintro (h | ⟨h, _⟩ | ⟨h6, _, _⟩)
      · omega
      · exact h2 h
      · omega
    · exact iff_of_true rfl (Or.inl h4)
    · apply iff_of_false (asU32_add2_ne _)
      rintro (h | ⟨h, _⟩ | ⟨h6, _, _⟩)
      · exact h4 h
      · exact h2 h
      · omega
  · -- 0x1: move
    rcases pc_move s m (read_word m s.program_counter) with h | h <;> rw [h]
    all_goals
      apply iff_of_false (by first | exact asU32_add2_add2_ne _ | exact asU32_add2_ne _)
    all_goals
      rintro (h' | ⟨h', _⟩ | ⟨h6, _, _⟩)
      · rw [h'] at heq; exact absurd heq (by decide)
      · rw [h'] at heq; exact absurd heq (by decide)
      · omega
  · -- 0x2: move
    rcases pc_move s m (read_word m s.program_counter) with h | h <;> rw [h]
    all_goals
      apply iff_of_false (by first | exact asU32_add2_add2_ne _ | exact asU32_add2_ne _)
    all_goals
      rintro (h' | ⟨h', _⟩ | ⟨h6, _, _⟩)
      · rw [h'] at heq; exact absurd heq (by decide)
      · rw [h'] at heq; exact absurd heq (by decide)
      · omega
  · -- 0x3: move
    rcases pc_move s m (read_word m s.program_counter) with h | h <;> rw [h]
    all_goals
      apply iff_of_false (by first | exact asU32_add2_add2_ne _ | exact asU32_add2_ne _)
    all_goals
      rintro (h' | ⟨h', _⟩ | ⟨h6, _, _⟩)
      · rw [h'] at heq; exact absurd heq (by decide)
      · rw [h'] at heq; exact absurd heq (by decide)
      · omega
  · -- 0x4: miscellaneous
    rw [pc_misc]
    split_ifs with h1 h2 h3 h4
    · apply iff_of_false (asU32_add2_add2_ne _)
      rintro (h | ⟨h, _⟩ | ⟨h6, _, _⟩)
      · rw [h] at h1; exact absurd h1 (by decide)
      · rw [h] at h1; exact absurd h1 (by decide)
      · omega
    · constructor
      · intro h
        exact Or.inr (Or.inl ⟨h2, h⟩)
      · rintro (h | ⟨_, h⟩ | ⟨h6, _, _⟩)
        · rw [h] at h2; exact absurd h2 (by decide)
        · exact h
        · omega
    · apply iff_of_false (asU32_add2_ne _)
      rintro (h | ⟨h, _⟩ | ⟨h6, _, _⟩)
      · omega
      · exact h2 h
      · omega
    · exact iff_of_true rfl (Or.inl h4)
    · apply iff_of_false (asU32_add2_ne _)
      rintro (h | ⟨h, _⟩ | ⟨h6, _, _⟩)
      · exact h4 h
      · exact h2 h
      · omega
  · -- 0x5: addq/subq
    rw [pc_addq]
    apply iff_of_false (asU32_add2_ne _)
    rintro (h | ⟨h, _⟩ | ⟨h6, _, _⟩)
    · rw [h] at heq; exact absurd heq (by decide)
    · rw [h] at heq; exact absurd heq (by decide)
    · omega
  · -- 0x6: branch
    rw [pc_branch]
    have hb := toI8_bounds (read_word m s.program_counter &&& 0xFF)
    split_ifs with hc
    · rw [branch_taken_pc _ _ hpc hb.1 hb.2]
      constructor
      · intro hd
        exact Or.inr (Or.inr ⟨heq, hc, hd⟩)
      · rintro (h | ⟨h, _⟩ | ⟨_, _, hd⟩)
        · rw [h] at heq; exact absurd heq (by decide)
        · rw [h] at heq; exact absurd heq (by decide)
        · exact hd
    · apply iff_of_false (asU32_add2_ne _)
      rintro (h | ⟨h, _⟩ | ⟨_, hcc, _⟩)
      · rw [h] at heq; exact absurd heq (by decide)
      · rw [h] at heq; exact absurd heq (by decide)
      · exact hc hcc
  · -- 0x7: moveq
    rw [pc_moveq]
    apply iff_of_false (asU32_add2_ne _)
    rintro (h | ⟨h, _⟩ | ⟨h6, _, _⟩)
    · rw [h] at heq; exact absurd heq (by decide)
    · rw [h] at heq; exact absurd heq (by decide)
    · omega
  · -- 0x8: or (unimplemented)
    rw [pc_unimpl]
    apply iff_of_false (asU32_add2_ne _)
    rintro (h | ⟨h, _⟩ | ⟨h6, _, _⟩)
    · rw [h] at heq; exact absurd heq (by decide)
    · rw [h] at heq; exact absurd heq (by decide)
    · omega
  · -- 0x9: sub/cmp
    rw [pc_subcmp]
    apply iff_of_false (asU32_add2_ne _)
    rintro (h | ⟨h, _⟩ | ⟨h6, _, _⟩)
    · rw [h] at heq; exact absurd heq (by decide)
    · rw [h] at heq; exact absurd heq (by decide)
    · omega
  · -- 0xA: unimplemented
    rw [pc_unimpl]
    apply iff_of_false (asU32_add2_ne _)
    rintro (h | ⟨h, _⟩ | ⟨h6, _, _⟩)
    · rw [h] at heq; exact absurd heq (by decide)
    · rw [h] at heq; exact absurd heq (by decide)
    · omega
  · -- 0xB: sub/cmp
    rw [pc_subcmp]
    apply iff_of_false (asU32_add2_ne _)
    rintro (h | ⟨h, _⟩ | ⟨h6, _, _⟩)
    · rw [h] at heq; exact absurd heq (by decide)
    · rw [h] at heq; exact absurd heq (by decide)
    · omega
  · -- 0xC: and/muls
    rcases pc_and s m (read_word m s.program_counter) with h | h <;> rw [h]
    all_goals
      apply iff_of_false (by first | exact asU32_add2_add2_ne _ | exact asU32_add2_ne _)
    all_goals
      rintro (h' | ⟨h', _⟩ | ⟨h6, _, _⟩)
      · rw [h'] at heq; exact absurd heq (by decide)
      · rw [h'] at heq; exact absurd heq (by decide)
      · omega
  · -- 0xD: add
    rw [pc_add]
    apply iff_of_false (asU32_add2_ne _)
    rintro (h | ⟨h, _⟩ | ⟨h6, _, _⟩)
    · rw [h] at heq; exact absurd heq (by decide)
    · rw [h] at heq; exact absurd heq (by decide)
    · omega
  · -- 0xE: shift (unimplemented)
    rw [pc_unimpl]
    apply iff_of_false (asU32_add2_ne _)
    rintro (h | ⟨h, _⟩ | ⟨h6, _, _⟩)
    · rw [h] at heq; exact absurd heq (by decide)
    · rw [h] at heq; exact absurd heq (by decide)
    · omega
  · -- default: unimplemented
    rename_i h0 h1 h2 h3 h4 h5 h6 h7 h8 h9 h10 h11 h12 h13
    rw [pc_unimpl]
    apply iff_of_false (asU32_add2_ne _)
    rintro (h | ⟨h, _⟩ | ⟨hn6, _, _⟩)
    · rw [h] at h4; exact h4 (by decide)
    · rw [h] at h4; exact h4 (by decide)
    · exact h6 hn6

/-- Witness for C3: a SIMHALT word leaves the program counter in place. -/
theorem c3_pc_stall_iff_witness :
    (execute_instruction cpu_new (loadWords mem_new [(0, 0x4E72)])).1.program_counter =
      cpu_new.program_counter :=
  (c3_pc_stall_iff cpu_new (loadWords mem_new [(0, 0x4E72)]) (by decide)).mpr
    (Or.inl (by decide))

end M68k
